import Mathlib

/-!
# Chunked delivery of posture reports (`resultshandling/reporter/v2`)

A shallow embedding of `reporteventreceiver.go`: the chunk-and-send loop
`sendResources`, the uploader `sendReport` and their caller `prepareReport`.

Conventions of the embedding

* A Go `error` is an `Option String`: `none` is `nil`, `some text` is an error
  whose `Error()` text is `text`.
* `json.Marshal` and `getter.HttpPost` belong to other packages; they are the
  fields of `Env`.  The transport answers as a function of the requests issued
  before, so that any sequence of successes and failures can be described.
* Every call of `sendReport` is appended to a log (`World`); this is the
  observable effect of the code.
* The size ceiling `MAX_REPORT_SIZE` is passed to the functions as a parameter
  `ceiling`; the source fixes it to `MAX_REPORT_SIZE`.
* `counter` is a sum of lengths of byte slices and `reportCounter` counts the
  sends; both stay far below the range of a 64-bit `int`, so they are
  unbounded numbers here.
* The progress spinner of `prepareReport` has no effect on the data and is
  left out.
-/

namespace ReporterV2

/-- Serialized bytes, the result of `json.Marshal`. -/
abbrev Bytes := List (Fin 256)

/-- The size ceiling of a sub-report (`const MAX_REPORT_SIZE = 2097152 // 2 MB`). -/
def MAX_REPORT_SIZE : Nat := 2097152

/-- A discovered entity (`reporthandling.Resource`): its identifier and its
payload, kept as raw data. -/
structure Resource where
  ResourceID : String
  Object : Bytes
  deriving DecidableEq, Repr

/-- The findings attached to a resource (`resourcesresults.Result`). -/
structure Result where
  ResourceID : String
  AssociatedControls : Bytes
  deriving DecidableEq, Repr

/-- Modelled from the spec: the accessor `GetResourceID` of a Result is declared
in another module; the spec calls it the record's stable identifier accessor. -/
def Result.GetResourceID (v : Result) : String := v.ResourceID

/-- Pagination metadata of one transmission (`reporthandlingv2.PaginationMarks`). -/
structure PaginationMarks where
  ReportNumber : Int
  IsLastReport : Bool
  deriving DecidableEq, Repr

/-- The report, and the shape of every sub-report (`reporthandlingv2.PostureReport`). -/
structure PostureReport where
  ReportID : String
  CustomerGUID : String
  ClusterName : String
  Resources : List Resource
  Results : List Result
  PaginationInfo : PaginationMarks
  deriving DecidableEq, Repr

/-- The receiver object; `httpClient` is represented by the transport of `Env`. -/
structure ReportEventReceiver where
  clusterName : String
  customerGUID : String
  eventReceiverURL : Option String
  token : String
  customerAdminEMail : String
  message : String
  deriving DecidableEq, Repr

/-- An outbound request: the host it is posted to and its body. -/
abbrev Request := String × Bytes

/-- The collaborators of the code that live in other packages or files. -/
structure Env where
  /-- The call `json.Marshal(v)` on a Resource: the bytes, or the error text. -/
  marshalResource : Resource → Except String Bytes
  /-- The call `json.Marshal(v)` on a Result. -/
  marshalResult : Result → Except String Bytes
  /-- The call `json.Marshal(postureReport)` on a whole sub-report. -/
  marshalReport : PostureReport → Except String Bytes
  /-- The call `getter.HttpPost(client, host, nil, body)`: the response text and
  the error, given the requests issued earlier. -/
  httpPost : List Request → String → Bytes → String × Option String
  /-- The method `initEventReceiverURL` of the receiver (another file). -/
  initEventReceiverURL : ReportEventReceiver → ReportEventReceiver
  /-- The function `hostToString(url, reportID)` (another file). -/
  hostToString : Option String → String → String

/-- One call of `sendReport`: the sub-report as stamped, the request issued (if
the sub-report was serialized) and the error returned. -/
structure Call where
  report : PostureReport
  request : Option Request
  err : Option String
  deriving DecidableEq, Repr

/-- The log of the calls of `sendReport`, oldest first. -/
abbrev World := List Call

/-- The requests issued so far, oldest first. -/
def requests (w : World) : List Request := w.filterMap Call.request

/-- Modelled from the spec: `setSubReport` is defined in another file; the spec
describes the accumulator as a Report-shaped container that carries the report's
identifiers and starts with no record. -/
def setSubReport (postureReport : PostureReport) : PostureReport :=
  { ReportID := postureReport.ReportID
    CustomerGUID := postureReport.CustomerGUID
    ClusterName := postureReport.ClusterName
    Resources := []
    Results := []
    PaginationInfo := ⟨0, false⟩ }

/-- The function `sendReport`: stamp the pagination marks on the sub-report (the
caller sees the stamp through the pointer), serialize it, post it.  Returns the
error, the stamped sub-report and the log. -/
def sendReport (env : Env) (host : String) (postureReport : PostureReport) (counter : Int)
    (isLastReport : Bool) (w : World) : Option String × PostureReport × World :=
  let stamped : PostureReport :=
    { postureReport with PaginationInfo := ⟨counter, isLastReport⟩ }
  match env.marshalReport stamped with
  | .error err =>
    let e := "in 'sendReport' failed to json.Marshal, reason: " ++ err
    (some e, stamped, w ++ [⟨stamped, none, some e⟩])
  | .ok reqBody =>
    match env.httpPost (requests w) host reqBody with
    | (msg, some err) =>
      let e := host ++ ", " ++ err ++ ":" ++ msg
      (some e, stamped, w ++ [⟨stamped, some (host, reqBody), some e⟩])
    | (_, none) => (none, stamped, w ++ [⟨stamped, some (host, reqBody), none⟩])

/-- The variables of `sendResources` that live across the iterations. -/
structure LoopState where
  splittedPostureReport : PostureReport
  counter : Nat
  reportCounter : Int
  world : World

/-- What a piece of `sendResources` ends in: `return err` (with the caller's
counter and the log at that point), or the state to go on with. -/
inductive Flow where
  | ret (err : String) (reportCounter : Int) (world : World)
  | next (s : LoopState)

/-- The body of both `if` statements of `sendResources` (lines 112-122 and
138-148): send the accumulator as a non-final sub-report, count it, empty the
accumulator, restart the byte counter. -/
def flush (env : Env) (host : String) (s : LoopState) : Flow :=
  match sendReport env host s.splittedPostureReport s.reportCounter false s.world with
  | (some err, _, w) => .ret err s.reportCounter w
  | (none, p, w) =>
    .next { splittedPostureReport := { p with Resources := [], Results := [] }
            counter := 0
            reportCounter := s.reportCounter + 1
            world := w }

/-- One iteration of the loop over `postureReport.Resources` (lines 104-126). -/
def resourceIter (ceiling : Nat) (env : Env) (host : String) (v : Resource) (s : LoopState) :
    Flow :=
  match env.marshalResource v with
  | .error err =>
    .ret ("failed to unmarshal resource '" ++ v.ResourceID ++ "', reason: " ++ err)
      s.reportCounter s.world
  | .ok r =>
    let flushed : Flow :=
      if s.counter + r.length ≥ ceiling ∧ s.splittedPostureReport.Resources.length > 0 then
        flush env host s
      else .next s
    match flushed with
    | .ret err c w => .ret err c w
    | .next s1 =>
      .next { s1 with
        counter := s1.counter + r.length
        splittedPostureReport :=
          { s1.splittedPostureReport with
            Resources := s1.splittedPostureReport.Resources ++ [v] } }

/-- The loop `for _, v := range postureReport.Resources` (lines 103-127). -/
def resourcesLoop (ceiling : Nat) (env : Env) (host : String) :
    List Resource → LoopState → Flow
  | [], s => .next s
  | v :: vs, s =>
    match resourceIter ceiling env host v s with
    | .ret err c w => .ret err c w
    | .next s1 => resourcesLoop ceiling env host vs s1

/-- One iteration of the loop over `postureReport.Results` (lines 130-152). -/
def resultIter (ceiling : Nat) (env : Env) (host : String) (v : Result) (s : LoopState) :
    Flow :=
  match env.marshalResult v with
  | .error err =>
    .ret ("failed to unmarshal resource '" ++ v.GetResourceID ++ "', reason: " ++ err)
      s.reportCounter s.world
  | .ok r =>
    let flushed : Flow :=
      if s.counter + r.length ≥ ceiling ∧ s.splittedPostureReport.Results.length > 0 then
        flush env host s
      else .next s
    match flushed with
    | .ret err c w => .ret err c w
    | .next s1 =>
      .next { s1 with
        counter := s1.counter + r.length
        splittedPostureReport :=
          { s1.splittedPostureReport with
            Results := s1.splittedPostureReport.Results ++ [v] } }

/-- The loop `for _, v := range postureReport.Results` (lines 129-153). -/
def resultsLoop (ceiling : Nat) (env : Env) (host : String) :
    List Result → LoopState → Flow
  | [], s => .next s
  | v :: vs, s =>
    match resultIter ceiling env host v s with
    | .ret err c w => .ret err c w
    | .next s1 => resultsLoop ceiling env host vs s1

/-- What `sendResources` leaves behind: the error returned, the caller's
`reportCounter` and the log. -/
structure Outcome where
  err : Option String
  reportCounter : Int
  world : World

/-- The function `sendResources` (lines 99-156).  Its parameter `isLastReport`
is not used by the source: the last send passes the literal `true`. -/
def sendResources (ceiling : Nat) (env : Env) (host : String) (postureReport : PostureReport)
    (reportCounter : Int) (_isLastReport : Bool) (w : World) : Outcome :=
  let s0 : LoopState :=
    { splittedPostureReport := setSubReport postureReport
      counter := 0
      reportCounter := reportCounter
      world := w }
  match resourcesLoop ceiling env host postureReport.Resources s0 with
  | .ret err c w1 => ⟨some err, c, w1⟩
  | .next s1 =>
    match resultsLoop ceiling env host postureReport.Results s1 with
    | .ret err c w2 => ⟨some err, c, w2⟩
    | .next s2 =>
      match sendReport env host s2.splittedPostureReport s2.reportCounter true s2.world with
      | (err, _, w3) => ⟨err, s2.reportCounter, w3⟩

/-- The function `prepareReport` (lines 76-97): compute the host, start the
report counter at 0 and run `sendResources`.  Returns the error, the receiver
(its URL initialised) and the log. -/
def prepareReport (ceiling : Nat) (env : Env) (report : ReportEventReceiver)
    (postureReport : PostureReport) (w : World) :
    Option String × ReportEventReceiver × World :=
  let report1 := env.initEventReceiverURL report
  let host := env.hostToString report1.eventReceiverURL postureReport.ReportID
  let out := sendResources ceiling env host postureReport 0 false w
  (out.err, report1, out.world)

/-! ## The chunk plan

The code interleaves the scan of the records with the sends.  For the proofs
the two are separated: `plan` is the scan alone (which accumulators are closed
and what remains at the end), `sendSeq` and `sendAll` are the sends alone.
`sendResources_world` and `sendResources_err` state that the code is the plan
followed by the sends. -/

/-- A record of either pass. -/
abbrev Item := Resource ⊕ Result

/-- The Resources and the Results of one accumulator. -/
abbrev Chunk := List Resource × List Result

/-- The accumulator of the scan: its records and the byte counter. -/
structure Acc where
  Resources : List Resource
  Results : List Result
  counter : Nat
  deriving DecidableEq, Repr

/-- Serialization of a record of either pass. -/
def marshalItem (env : Env) : Item → Except String Bytes
  | .inl v => env.marshalResource v
  | .inr v => env.marshalResult v

/-- The error text of a record that cannot be serialized. -/
def itemError : Item → String → String
  | .inl v, err => "failed to unmarshal resource '" ++ v.ResourceID ++ "', reason: " ++ err
  | .inr v, err => "failed to unmarshal resource '" ++ v.GetResourceID ++ "', reason: " ++ err

/-- The length the flush test of the record's pass looks at. -/
def Acc.kindCount (a : Acc) : Item → Nat
  | .inl _ => a.Resources.length
  | .inr _ => a.Results.length

/-- Append a record of `n` bytes to the accumulator. -/
def Acc.push (a : Acc) (x : Item) (n : Nat) : Acc :=
  match x with
  | .inl v => { a with Resources := a.Resources ++ [v], counter := a.counter + n }
  | .inr v => { a with Results := a.Results ++ [v], counter := a.counter + n }

/-- The scan without the sends: the accumulators closed by a flush, in order,
and the accumulator left at the end or the serialization error that stops
the scan. -/
def plan (ceiling : Nat) (m : Item → Except String Bytes) :
    List Item → Acc → List Chunk × Except String Acc
  | [], a => ([], .ok a)
  | x :: xs, a =>
    match m x with
    | .error err => ([], .error (itemError x err))
    | .ok r =>
      if a.counter + r.length ≥ ceiling ∧ a.kindCount x > 0 then
        ((a.Resources, a.Results) :: (plan ceiling m xs (Acc.push ⟨[], [], 0⟩ x r.length)).1,
          (plan ceiling m xs (Acc.push ⟨[], [], 0⟩ x r.length)).2)
      else plan ceiling m xs (a.push x r.length)

/-- The records of a report in scan order: the Resources, then the Results. -/
def items (postureReport : PostureReport) : List Item :=
  postureReport.Resources.map Sum.inl ++ postureReport.Results.map Sum.inr

/-- Send the closed accumulators as non-final sub-reports, counting from `rc`,
until one send fails.  Returns the error, the stamp left on the accumulator,
the counter and the log. -/
def sendSeq (env : Env) (host id guid cl : String) :
    List Chunk → PaginationMarks → Int → World → Option String × PaginationMarks × Int × World
  | [], pg, rc, w => (none, pg, rc, w)
  | c :: cs, pg, rc, w =>
    match sendReport env host ⟨id, guid, cl, c.1, c.2, pg⟩ rc false w with
    | (some e, _, w1) => (some e, ⟨rc, false⟩, rc, w1)
    | (none, _, w1) => sendSeq env host id guid cl cs ⟨rc, false⟩ (rc + 1) w1

/-- How a loop ends, given what the sends of its flushes and its scan gave. -/
def finish (id guid cl : String) (r : Option String × PaginationMarks × Int × World)
    (fin : Except String Acc) : Flow :=
  match r with
  | (some e, _, rc, w) => .ret e rc w
  | (none, pg, rc, w) =>
    match fin with
    | .error e => .ret e rc w
    | .ok a => .next ⟨⟨id, guid, cl, a.Resources, a.Results, pg⟩, a.counter, rc, w⟩

/-- The non-final sub-reports of the closed accumulators, numbered from `rc`. -/
def stampSeq (id guid cl : String) : List Chunk → Int → List PostureReport
  | [], _ => []
  | c :: cs, rc => ⟨id, guid, cl, c.1, c.2, ⟨rc, false⟩⟩ :: stampSeq id guid cl cs (rc + 1)

/-- Send stamped sub-reports in order until one send fails. -/
def sendAll (env : Env) (host : String) : List PostureReport → World → Option String × World
  | [], w => (none, w)
  | p :: ps, w =>
    match sendReport env host p p.PaginationInfo.ReportNumber p.PaginationInfo.IsLastReport w with
    | (some e, _, w1) => (some e, w1)
    | (none, _, w1) => sendAll env host ps w1

/-- The sub-reports `sendResources` passes to `sendReport` when no send fails:
the flushes, then the final sub-report unless a record fails to serialize. -/
def schedule (ceiling : Nat) (env : Env) (postureReport : PostureReport) (rc : Int) :
    List PostureReport :=
  let pl := plan ceiling (marshalItem env) (items postureReport) ⟨[], [], 0⟩
  stampSeq postureReport.ReportID postureReport.CustomerGUID postureReport.ClusterName pl.1 rc ++
    match pl.2 with
    | .error _ => []
    | .ok a =>
      [⟨postureReport.ReportID, postureReport.CustomerGUID, postureReport.ClusterName,
        a.Resources, a.Results, ⟨rc + pl.1.length, true⟩⟩]

/-- The serialization error of the scan, if a record fails to serialize. -/
def encodingError (ceiling : Nat) (env : Env) (postureReport : PostureReport) : Option String :=
  match (plan ceiling (marshalItem env) (items postureReport) ⟨[], [], 0⟩).2 with
  | .error e => some e
  | .ok _ => none

/-- The calls of `sendReport` made between the log `w` and the outcome `o`. -/
def sent (w : World) (o : Outcome) : List Call := o.world.drop w.length

/-- The sub-reports passed to `sendReport` between the log `w` and the outcome `o`. -/
def sentReports (w : World) (o : Outcome) : List PostureReport := (sent w o).map Call.report

/-- The log entry `c` is what `sendReport` appends when it is called on the
sub-report of `c` with the log `before`. -/
def Logged (env : Env) (host : String) (before : World) (c : Call) : Prop :=
  sendReport env host c.report c.report.PaginationInfo.ReportNumber
    c.report.PaginationInfo.IsLastReport before = (c.err, c.report, before ++ [c])

/-- The sub-reports passed to `sendReport` between the log `w` and the result
of `prepareReport`. -/
def preparedCalls (w : World) (out : Option String × ReportEventReceiver × World) : List Call :=
  out.2.2.drop w.length

/-- The serialized size of a record: the length of its serialization. -/
def recordSize (m : Item → Except String Bytes) (x : Item) : Nat :=
  match m x with
  | .ok r => r.length
  | .error _ => 0

/-- The serialized size of a sub-report: the sum of the serialized sizes of
its records. -/
def reportSize (env : Env) (p : PostureReport) : Nat :=
  ((items p).map (recordSize (marshalItem env))).sum

/-- The number of records of a sub-report, Resources and Results together. -/
def recordCount (p : PostureReport) : Nat := p.Resources.length + p.Results.length

/-- The order of the passes between an earlier and a later sub-report: not
both a Result in the earlier one and a Resource in the later one. -/
def PassOrder (c d : Chunk) : Prop := ¬ (c.2 ≠ [] ∧ d.1 ≠ [])

/-- The Resources and the Results of a sub-report. -/
def chunkOf (q : PostureReport) : Chunk := (q.Resources, q.Results)

/-- A payload of `n` zero bytes. -/
def payload (n : Nat) : Bytes := List.replicate n 0

/-! ## Measures and invariants of the scan -/

/-- The serialized size of the records of an accumulator. -/
def chunkSize (m : Item → Except String Bytes) (c : Chunk) : Nat :=
  ((c.1.map Sum.inl ++ c.2.map Sum.inr).map (recordSize m)).sum

/-- The first record of an accumulator in scan order. -/
def firstItem (c : Chunk) : Option Item :=
  (c.1.map (Sum.inl : Resource → Item) ++ c.2.map (Sum.inr : Result → Item)).head?

/-- The accumulators the scan hands over when no send fails: those closed by
a flush, then the one left at the end unless a record fails to serialize. -/
def closed (ceiling : Nat) (m : Item → Except String Bytes) (xs : List Item) (a : Acc) :
    List Chunk :=
  (plan ceiling m xs a).1 ++
    match (plan ceiling m xs a).2 with
    | .ok a1 => [(a1.Resources, a1.Results)]
    | .error _ => []

/-- The records still to scan come in pass order, and none of them is a
Resource once the accumulator holds a Result. -/
def Ordered (a : Acc) (xs : List Item) : Prop :=
  (a.Results ≠ [] → ∀ y ∈ xs, y.isRight = true) ∧
    xs.Pairwise (fun x y => x.isRight = true → y.isRight = true)

/-- The byte counter is the serialized size of the accumulator, and it is
under the ceiling when the accumulator holds two Results, or no Result and two
Resources. -/
def Tracked (ceiling : Nat) (m : Item → Except String Bytes) (a : Acc) : Prop :=
  a.counter = chunkSize m (a.Resources, a.Results) ∧
    (2 ≤ a.Results.length ∨ (a.Results = [] ∧ 2 ≤ a.Resources.length) → a.counter < ceiling)

/-- A sub-report is closed only when the next record would bring the byte
count to the ceiling: the relation between a sub-report and the next one. -/
def Tight (ceiling : Nat) (m : Item → Except String Bytes) (c d : Chunk) : Prop :=
  ∃ x, firstItem d = some x ∧ chunkSize m c + recordSize m x ≥ ceiling

/-! ## The caller: `ActionSendReport` -/

/-- The session object handed to `ActionSendReport` (`cautils.OPASessionObj`);
only its report is read by this file. -/
structure OPASessionObj where
  Report : PostureReport
  deriving DecidableEq, Repr

/-- The fields of `url.URL` that `generateMessage` sets. -/
structure URL where
  Scheme : String
  Host : String
  Path : String
  RawQuery : String
  deriving DecidableEq, Repr

/-- The collaborators of `ActionSendReport` and `generateMessage` that live in
other packages or files. -/
structure Services where
  /-- The function `finalizeReport(opaSessionObj)` (another file). -/
  finalizeReport : OPASessionObj → OPASessionObj
  /-- The value of `uuid.NewV4().String()` in this run. -/
  newUUID : String
  /-- The value of `getter.GetArmoAPIConnector().GetFrontendURL()`. -/
  frontendURL : String
  /-- The method `Encode` of `url.Values`, applied to the pairs added. -/
  queryEncode : List (String × String) → String
  /-- The method `String` of `url.URL`. -/
  urlString : URL → String

/-- The function `generateMessage` (lines 206-229): the message with the link
to the scan results. -/
def generateMessage (sv : Services) (report : ReportEventReceiver) : ReportEventReceiver :=
  let u : URL := { Scheme := "https", Host := sv.frontendURL, Path := "", RawQuery := "" }
  let u1 : URL :=
    if report.customerAdminEMail ≠ "" then
      { u with Path := "configuration-scanning/" ++ report.clusterName }
    else
      { u with
        Path := "account/sign-up"
        RawQuery := sv.queryEncode
          [("invitationToken", report.token), ("customerGUID", report.customerGUID)] }
  let sep := "~~~~~~~~~~~~~~~~~~~~~~~~~~~~~~~~~~~~~~~~~~~~~~~~~~~~~~~~~~~~~~~~~~~~~~~~~~~\n"
  { report with
    message := sep ++ "   << WOW! Now you can see the scan results on the web >>\n\n" ++ ("   " ++ sv.urlString u1 ++ "\n") ++ sep }

/-- What `ActionSendReport` leaves behind: the error returned, the receiver,
the session object and the log. -/
structure ActionResult where
  err : Option String
  report : ReportEventReceiver
  opaSessionObj : OPASessionObj
  world : World

/-- The function `ActionSendReport` (lines 43-66).  The debug log line has no
effect on the data and is left out. -/
def ActionSendReport (ceiling : Nat) (env : Env) (sv : Services) (report : ReportEventReceiver)
    (opaSessionObj : OPASessionObj) (w : World) : ActionResult :=
  let session := sv.finalizeReport opaSessionObj
  if report.customerGUID = "" then
    ⟨none, { report with message := "WARNING: Failed to publish results. Reason: Unknown accout ID. Run kubescape with the '--account <account ID>' flag. Contact ARMO team for more details" }, session, w⟩
  else if report.clusterName = "" then
    ⟨none, { report with message := "WARNING: Failed to publish results because the cluster name is Unknown. If you are scanning YAML files the results are not submitted to the Kubescape SaaS" }, session, w⟩
  else
    let session1 : OPASessionObj :=
      { session with
        Report :=
          { session.Report with
            ReportID := sv.newUUID
            CustomerGUID := report.customerGUID
            ClusterName := report.clusterName } }
    match prepareReport ceiling env report session1.Report w with
    | (some err, report1, w1) => ⟨none, { report1 with message := err }, session1, w1⟩
    | (none, report1, w1) => ⟨none, generateMessage sv report1, session1, w1⟩

/-- The report `ActionSendReport` hands to `prepareReport`: the finalized
report with a fresh identifier and the receiver's account and cluster. -/
def identified (sv : Services) (report : ReportEventReceiver) (opaSessionObj : OPASessionObj) :
    PostureReport :=
  { (sv.finalizeReport opaSessionObj).Report with
    ReportID := sv.newUUID
    CustomerGUID := report.customerGUID
    ClusterName := report.clusterName }

/-! ## Collaborators used for concrete runs -/

/-- A run-time environment in which every serialization and every request
succeeds: a record serializes to its payload. -/
def sampleEnv : Env where
  marshalResource v := .ok v.Object
  marshalResult v := .ok v.AssociatedControls
  marshalReport _ := .ok []
  httpPost _ _ _ := ("", none)
  initEventReceiverURL r := { r with eventReceiverURL := some "https://report.example" }
  hostToString url reportID := url.getD "" ++ "?reportID=" ++ reportID

/-- Services for concrete runs: `finalizeReport` leaves the session as it is. -/
def sampleServices : Services where
  finalizeReport o := o
  newUUID := "3f0c2c1e-0000-4000-8000-000000000001"
  frontendURL := "portal.example"
  queryEncode q := String.intercalate "&" (q.map fun kv => kv.1 ++ "=" ++ kv.2)
  urlString u :=
    u.Scheme ++ "://" ++ u.Host ++ "/" ++ u.Path ++
      (if u.RawQuery = "" then "" else "?" ++ u.RawQuery)

/-- As `sampleEnv`, but the request issued after `k` earlier requests fails. -/
def failingTransport (k : Nat) : Env :=
  { sampleEnv with
    httpPost := fun earlier _ _ =>
      if earlier.length = k then ("", some "connection refused") else ("", none) }

/-- As `sampleEnv`, but the records whose identifier is `bad` cannot be serialized. -/
def failingMarshal (bad : String) : Env :=
  { sampleEnv with
    marshalResource := fun v =>
      if v.ResourceID = bad then .error "json: unsupported value" else .ok v.Object
    marshalResult := fun v =>
      if v.ResourceID = bad then .error "json: unsupported value" else .ok v.AssociatedControls }

/-- As `sampleEnv`, but no report can be serialized: `json.Marshal` of the
sub-report fails in `sendReport`, before any request is issued. -/
def failingReportMarshal : Env :=
  { sampleEnv with marshalReport := fun _ => .error "json: unsupported value" }

/-! ## The code is the plan followed by the sends -/

theorem sendReport_stamp (env : Env) (host : String) (p : PostureReport) (rc : Int) (l : Bool)
    (w : World) :
    (sendReport env host p rc l w).2.1 = { p with PaginationInfo := ⟨rc, l⟩ } := by
  unfold sendReport
  simp only
  split
  · rfl
  · split <;> rfl

theorem resourcesLoop_eq (ceiling : Nat) (env : Env) (host id guid cl : String) :
    ∀ (vs : List Resource) (R : List Resource) (X : List Result) (pg : PaginationMarks)
      (counter : Nat) (rc : Int) (w : World),
      resourcesLoop ceiling env host vs ⟨⟨id, guid, cl, R, X, pg⟩, counter, rc, w⟩ =
        finish id guid cl
          (sendSeq env host id guid cl
            (plan ceiling (marshalItem env) (vs.map Sum.inl) ⟨R, X, counter⟩).1 pg rc w)
          (plan ceiling (marshalItem env) (vs.map Sum.inl) ⟨R, X, counter⟩).2 := by
  intro vs
  induction vs with
  | nil => intros; rfl
  | cons v vs ih =>
    intro R X pg counter rc w
    simp only [resourcesLoop, resourceIter, List.map_cons, plan, marshalItem]
    cases hm : env.marshalResource v with
    | error e => simp [sendSeq, finish, itemError]
    | ok r =>
      by_cases hg : counter + r.length ≥ ceiling ∧ R.length > 0
      · have hst := sendReport_stamp env host ⟨id, guid, cl, R, X, pg⟩ rc false w
        simp only [hg, Acc.kindCount, and_self, if_true, flush, sendSeq]
        rcases hs : sendReport env host ⟨id, guid, cl, R, X, pg⟩ rc false w with ⟨_ | e, p, w1⟩
        · rw [hs] at hst
          simp only at hst
          subst hst
          simp only [Acc.push]
          exact ih _ _ _ _ _ _
        · simp [finish]
      · simp only [hg, Acc.kindCount, if_false, Acc.push]
        exact ih _ _ _ _ _ _

theorem resultsLoop_eq (ceiling : Nat) (env : Env) (host id guid cl : String) :
    ∀ (vs : List Result) (R : List Resource) (X : List Result) (pg : PaginationMarks)
      (counter : Nat) (rc : Int) (w : World),
      resultsLoop ceiling env host vs ⟨⟨id, guid, cl, R, X, pg⟩, counter, rc, w⟩ =
        finish id guid cl
          (sendSeq env host id guid cl
            (plan ceiling (marshalItem env) (vs.map Sum.inr) ⟨R, X, counter⟩).1 pg rc w)
          (plan ceiling (marshalItem env) (vs.map Sum.inr) ⟨R, X, counter⟩).2 := by
  intro vs
  induction vs with
  | nil => intros; rfl
  | cons v vs ih =>
    intro R X pg counter rc w
    simp only [resultsLoop, resultIter, List.map_cons, plan, marshalItem]
    cases hm : env.marshalResult v with
    | error e => simp [sendSeq, finish, itemError]
    | ok r =>
      by_cases hg : counter + r.length ≥ ceiling ∧ X.length > 0
      · have hst := sendReport_stamp env host ⟨id, guid, cl, R, X, pg⟩ rc false w
        simp only [hg, Acc.kindCount, and_self, if_true, flush, sendSeq]
        rcases hs : sendReport env host ⟨id, guid, cl, R, X, pg⟩ rc false w with ⟨_ | e, p, w1⟩
        · rw [hs] at hst
          simp only at hst
          subst hst
          simp only [Acc.push]
          exact ih _ _ _ _ _ _
        · simp [finish]
      · simp only [hg, Acc.kindCount, if_false, Acc.push]
        exact ih _ _ _ _ _ _

theorem plan_append (ceiling : Nat) (m : Item → Except String Bytes) :
    ∀ (xs ys : List Item) (a : Acc),
      plan ceiling m (xs ++ ys) a =
        match (plan ceiling m xs a).2 with
        | .error e => ((plan ceiling m xs a).1, .error e)
        | .ok a1 => ((plan ceiling m xs a).1 ++ (plan ceiling m ys a1).1, (plan ceiling m ys a1).2) := by
  intro xs
  induction xs with
  | nil => intro ys a; simp [plan]
  | cons x xs ih =>
    intro ys a
    rw [List.cons_append]
    simp only [plan]
    cases hm : m x with
    | error e => simp
    | ok r =>
      simp only
      split
      · rw [ih]
        split <;> simp_all
      · rw [ih]

theorem sendSeq_append (env : Env) (host id guid cl : String) :
    ∀ (cs ds : List Chunk) (pg : PaginationMarks) (rc : Int) (w : World),
      sendSeq env host id guid cl (cs ++ ds) pg rc w =
        match sendSeq env host id guid cl cs pg rc w with
        | (some e, pg1, rc1, w1) => (some e, pg1, rc1, w1)
        | (none, pg1, rc1, w1) => sendSeq env host id guid cl ds pg1 rc1 w1 := by
  intro cs
  induction cs with
  | nil => intro ds pg rc w; simp [sendSeq]
  | cons c cs ih =>
    intro ds pg rc w
    rw [List.cons_append]
    simp only [sendSeq]
    rcases sendReport env host ⟨id, guid, cl, c.1, c.2, pg⟩ rc false w with ⟨_ | e, p, w1⟩
    · simp only
      rw [ih]
    · simp

theorem sendAll_append (env : Env) (host : String) :
    ∀ (ps qs : List PostureReport) (w : World),
      sendAll env host (ps ++ qs) w =
        match sendAll env host ps w with
        | (some e, w1) => (some e, w1)
        | (none, w1) => sendAll env host qs w1 := by
  intro ps
  induction ps with
  | nil => intro qs w; simp [sendAll]
  | cons p ps ih =>
    intro qs w
    rw [List.cons_append]
    simp only [sendAll]
    rcases sendReport env host p p.PaginationInfo.ReportNumber p.PaginationInfo.IsLastReport w
      with ⟨_ | e, p1, w1⟩
    · simp only
      rw [ih]
    · simp

theorem sendSeq_sendAll (env : Env) (host id guid cl : String) :
    ∀ (cs : List Chunk) (pg : PaginationMarks) (rc : Int) (w : World),
      sendAll env host (stampSeq id guid cl cs rc) w =
        ((sendSeq env host id guid cl cs pg rc w).1,
          (sendSeq env host id guid cl cs pg rc w).2.2.2) := by
  intro cs
  induction cs with
  | nil => intro pg rc w; simp [sendSeq, sendAll, stampSeq]
  | cons c cs ih =>
    intro pg rc w
    have hsame : sendReport env host ⟨id, guid, cl, c.1, c.2, pg⟩ rc false w =
        sendReport env host ⟨id, guid, cl, c.1, c.2, ⟨rc, false⟩⟩ rc false w := rfl
    simp only [sendSeq, stampSeq, sendAll, hsame]
    rcases sendReport env host ⟨id, guid, cl, c.1, c.2, ⟨rc, false⟩⟩ rc false w
      with ⟨_ | e, p1, w1⟩
    · simp only
      exact ih ⟨rc, false⟩ (rc + 1) w1
    · simp

theorem sendSeq_counter (env : Env) (host id guid cl : String) :
    ∀ (cs : List Chunk) (pg : PaginationMarks) (rc : Int) (w : World),
      (sendSeq env host id guid cl cs pg rc w).1 = none →
        (sendSeq env host id guid cl cs pg rc w).2.2.1 = rc + cs.length := by
  intro cs
  induction cs with
  | nil => intro pg rc w _; simp [sendSeq]
  | cons c cs ih =>
    intro pg rc w
    simp only [sendSeq]
    rcases sendReport env host ⟨id, guid, cl, c.1, c.2, pg⟩ rc false w with ⟨_ | e, p1, w1⟩
    · simp only
      intro h
      rw [ih _ _ _ h, List.length_cons]
      push_cast
      ring
    · simp

theorem stampSeq_length (id guid cl : String) :
    ∀ (cs : List Chunk) (rc : Int), (stampSeq id guid cl cs rc).length = cs.length := by
  intro cs
  induction cs with
  | nil => intro rc; rfl
  | cons c cs ih => intro rc; simp [stampSeq, ih]

/-- Both loops of `sendResources`, as the plan of all records followed by the
sends of its flushes. -/
theorem loops_eq (ceiling : Nat) (env : Env) (host id guid cl : String) (R : List Resource)
    (X : List Result) (R0 : List Resource) (X0 : List Result) (pg : PaginationMarks)
    (counter : Nat) (rc : Int) (w : World) :
    (match resourcesLoop ceiling env host R ⟨⟨id, guid, cl, R0, X0, pg⟩, counter, rc, w⟩ with
      | .ret e c w1 => Flow.ret e c w1
      | .next s1 => resultsLoop ceiling env host X s1) =
      finish id guid cl
        (sendSeq env host id guid cl
          (plan ceiling (marshalItem env) (R.map Sum.inl ++ X.map Sum.inr) ⟨R0, X0, counter⟩).1
          pg rc w)
        (plan ceiling (marshalItem env) (R.map Sum.inl ++ X.map Sum.inr) ⟨R0, X0, counter⟩).2 := by
  rw [resourcesLoop_eq, plan_append]
  rcases hf1 : (plan ceiling (marshalItem env) (R.map Sum.inl) ⟨R0, X0, counter⟩).2 with e1 | a1
  · simp only
    rcases sendSeq env host id guid cl
      (plan ceiling (marshalItem env) (R.map Sum.inl) ⟨R0, X0, counter⟩).1 pg rc w
      with ⟨_ | e, pg1, rc1, w1⟩ <;> simp [finish]
  · simp only [sendSeq_append]
    rcases sendSeq env host id guid cl
      (plan ceiling (marshalItem env) (R.map Sum.inl) ⟨R0, X0, counter⟩).1 pg rc w
      with ⟨_ | e, pg1, rc1, w1⟩
    · simp only [finish]
      rw [resultsLoop_eq]
      rfl
    · simp [finish]

/-- The code as the plan followed by the sends. -/
theorem sendResources_eq (ceiling : Nat) (env : Env) (host : String) (p : PostureReport)
    (rc : Int) (l : Bool) (w : World) :
    sendResources ceiling env host p rc l w =
      ⟨match (sendAll env host (schedule ceiling env p rc) w).1 with
        | some e => some e
        | none => encodingError ceiling env p,
       (sendResources ceiling env host p rc l w).reportCounter,
       (sendAll env host (schedule ceiling env p rc) w).2⟩ := by
  obtain ⟨id, guid, cl, R, X, pg⟩ := p
  have hl := loops_eq ceiling env host id guid cl R X [] [] ⟨0, false⟩ 0 rc w
  have hc := sendSeq_counter env host id guid cl
    (plan ceiling (marshalItem env) (R.map Sum.inl ++ X.map Sum.inr) ⟨[], [], 0⟩).1 ⟨0, false⟩ rc w
  have hsr : sendResources ceiling env host ⟨id, guid, cl, R, X, pg⟩ rc l w =
      match (match resourcesLoop ceiling env host R ⟨⟨id, guid, cl, [], [], ⟨0, false⟩⟩, 0, rc, w⟩ with
        | .ret e c w1 => Flow.ret e c w1
        | .next s1 => resultsLoop ceiling env host X s1) with
      | .ret err c w2 => ⟨some err, c, w2⟩
      | .next s2 =>
        ⟨(sendReport env host s2.splittedPostureReport s2.reportCounter true s2.world).1,
          s2.reportCounter,
          (sendReport env host s2.splittedPostureReport s2.reportCounter true s2.world).2.2⟩ := by
    simp only [sendResources, setSubReport]
    cases resourcesLoop ceiling env host R ⟨⟨id, guid, cl, [], [], ⟨0, false⟩⟩, 0, rc, w⟩ with
    | ret e c w1 => rfl
    | next s1 =>
      simp only
  have hrc : (sendResources ceiling env host ⟨id, guid, cl, R, X, pg⟩ rc l w).reportCounter =
      (sendResources ceiling env host ⟨id, guid, cl, R, X, pg⟩ rc l w).reportCounter := rfl
  rw [hsr, hl] at hrc ⊢
  simp only [schedule, encodingError, items, sendAll_append]
  rw [sendSeq_sendAll env host id guid cl _ ⟨0, false⟩ rc w]
  rcases hs : sendSeq env host id guid cl
    (plan ceiling (marshalItem env) (R.map Sum.inl ++ X.map Sum.inr) ⟨[], [], 0⟩).1 ⟨0, false⟩ rc w
    with ⟨_ | e, pg1, rc1, w1⟩
  · rw [hs] at hc
    have hrc1 := hc rfl
    simp only at hrc1
    subst hrc1
    rcases (plan ceiling (marshalItem env) (R.map Sum.inl ++ X.map Sum.inr) ⟨[], [], 0⟩).2
      with e2 | a2
    · simp [finish, sendAll]
    · simp only [finish, sendAll]
      have hsame : sendReport env host ⟨id, guid, cl, a2.Resources, a2.Results, pg1⟩
          (rc + ((plan ceiling (marshalItem env) (R.map Sum.inl ++ X.map Sum.inr)
            ⟨[], [], 0⟩).1.length : Int)) true w1 =
        sendReport env host ⟨id, guid, cl, a2.Resources, a2.Results,
          ⟨rc + ((plan ceiling (marshalItem env) (R.map Sum.inl ++ X.map Sum.inr)
            ⟨[], [], 0⟩).1.length : Int), true⟩⟩
          (rc + ((plan ceiling (marshalItem env) (R.map Sum.inl ++ X.map Sum.inr)
            ⟨[], [], 0⟩).1.length : Int)) true w1 := rfl
      rw [hsame]
      rcases sendReport env host ⟨id, guid, cl, a2.Resources, a2.Results,
          ⟨rc + ((plan ceiling (marshalItem env) (R.map Sum.inl ++ X.map Sum.inr)
            ⟨[], [], 0⟩).1.length : Int), true⟩⟩
          (rc + ((plan ceiling (marshalItem env) (R.map Sum.inl ++ X.map Sum.inr)
            ⟨[], [], 0⟩).1.length : Int)) true w1 with ⟨_ | e3, p3, w3⟩ <;> simp
  · simp [finish]

theorem sendResources_err (ceiling : Nat) (env : Env) (host : String) (p : PostureReport)
    (rc : Int) (l : Bool) (w : World) :
    (sendResources ceiling env host p rc l w).err =
      match (sendAll env host (schedule ceiling env p rc) w).1 with
      | some e => some e
      | none => encodingError ceiling env p := by
  rw [sendResources_eq]

theorem sendResources_world (ceiling : Nat) (env : Env) (host : String) (p : PostureReport)
    (rc : Int) (l : Bool) (w : World) :
    (sendResources ceiling env host p rc l w).world =
      (sendAll env host (schedule ceiling env p rc) w).2 := by
  rw [sendResources_eq]

/-! ## The sends -/

theorem sendReport_log (env : Env) (host : String) (p : PostureReport) (n : Int) (l : Bool)
    (w : World) :
    ∃ req, sendReport env host p n l w =
      ((sendReport env host p n l w).1, { p with PaginationInfo := ⟨n, l⟩ },
        w ++ [⟨{ p with PaginationInfo := ⟨n, l⟩ }, req, (sendReport env host p n l w).1⟩]) := by
  unfold sendReport
  simp only
  split
  · exact ⟨none, rfl⟩
  · split
    · exact ⟨_, rfl⟩
    · exact ⟨_, rfl⟩

/-- The log of `sendAll`: the calls it appends are calls of `sendReport` on an
initial part of the list; all succeed when the result is `nil`, and otherwise
all but the last succeed and the last returns the error. -/
theorem sendAll_log (env : Env) (host : String) :
    ∀ (ps : List PostureReport) (w : World), ∃ cs : List Call,
      (sendAll env host ps w).2 = w ++ cs ∧ cs.map Call.report <+: ps ∧
      (∀ pre c post, cs = pre ++ c :: post → Logged env host (w ++ pre) c) ∧
      (match (sendAll env host ps w).1 with
        | none => cs.map Call.report = ps ∧ ∀ c ∈ cs, c.err = none
        | some e => ∃ cs0 c, cs = cs0 ++ [c] ∧ c.err = some e ∧ ∀ c1 ∈ cs0, c1.err = none) := by
  intro ps
  induction ps with
  | nil =>
    intro w
    refine ⟨[], by simp [sendAll], by simp, ?_, by simp [sendAll]⟩
    intro pre c post h
    simp at h
  | cons p ps ih =>
    intro w
    obtain ⟨req, hlog⟩ := sendReport_log env host p p.PaginationInfo.ReportNumber
      p.PaginationInfo.IsLastReport w
    have hp : ({ p with PaginationInfo :=
        ⟨p.PaginationInfo.ReportNumber, p.PaginationInfo.IsLastReport⟩ } : PostureReport) = p := rfl
    rw [hp] at hlog
    simp only [sendAll]
    rcases he : (sendReport env host p p.PaginationInfo.ReportNumber
      p.PaginationInfo.IsLastReport w).1 with _ | e
    · rw [he] at hlog
      rw [hlog]
      simp only
      obtain ⟨cs, h1, h2, h3, h4⟩ := ih (w ++ [⟨p, req, none⟩])
      refine ⟨⟨p, req, none⟩ :: cs, by simp [h1], ?_, ?_, ?_⟩
      · simpa using h2
      · intro pre c post h
        cases pre with
        | nil =>
          simp only [List.nil_append, List.cons.injEq] at h
          obtain ⟨rfl, -⟩ := h
          simpa [Logged] using hlog
        | cons c0 pre =>
          simp only [List.cons_append, List.cons.injEq] at h
          obtain ⟨rfl, h⟩ := h
          have := h3 pre c post h
          simpa using this
      · rcases hr : (sendAll env host ps (w ++ [⟨p, req, none⟩])).1 with _ | e
        · rw [hr] at h4
          simp only [hr] at h4 ⊢
          exact ⟨by simp [h4.1], by simpa using h4.2⟩
        · rw [hr] at h4
          simp only [hr] at h4 ⊢
          obtain ⟨cs0, c, rfl, hc, hall⟩ := h4
          exact ⟨⟨p, req, none⟩ :: cs0, c, by simp, hc, by simpa using hall⟩
    · rw [he] at hlog
      rw [hlog]
      simp only
      refine ⟨[⟨p, req, some e⟩], rfl, by simp, ?_, ⟨[], _, rfl, rfl, by simp⟩⟩
      intro pre c post h
      cases pre with
      | nil =>
        simp only [List.nil_append, List.cons.injEq] at h
        obtain ⟨rfl, -⟩ := h
        simpa [Logged] using hlog
      | cons c0 pre =>
        simp at h

/-- The calls made by `sendResources`, read off the schedule. -/
theorem sent_log (ceiling : Nat) (env : Env) (host : String) (p : PostureReport)
    (rc : Int) (l : Bool) (w : World) :
    (sendResources ceiling env host p rc l w).world =
        w ++ sent w (sendResources ceiling env host p rc l w) ∧
      sentReports w (sendResources ceiling env host p rc l w) <+: schedule ceiling env p rc ∧
      (∀ pre c post, sent w (sendResources ceiling env host p rc l w) = pre ++ c :: post →
        Logged env host (w ++ pre) c) ∧
      (match (sendAll env host (schedule ceiling env p rc) w).1 with
        | none => sentReports w (sendResources ceiling env host p rc l w) =
              schedule ceiling env p rc ∧
            ∀ c ∈ sent w (sendResources ceiling env host p rc l w), c.err = none
        | some e => ∃ cs0 c, sent w (sendResources ceiling env host p rc l w) = cs0 ++ [c] ∧
            c.err = some e ∧ ∀ c1 ∈ cs0, c1.err = none) := by
  obtain ⟨cs, h1, h2, h3, h4⟩ := sendAll_log env host (schedule ceiling env p rc) w
  have hs : sent w (sendResources ceiling env host p rc l w) = cs := by
    simp [sent, sendResources_world, h1]
  simp only [sentReports, hs]
  exact ⟨by rw [sendResources_world, h1], h2, h3, h4⟩

/-- When every call in the log succeeded, the whole schedule was sent and the
error returned is the serialization error of the scan, if any. -/
theorem sent_of_all_ok (ceiling : Nat) (env : Env) (host : String) (p : PostureReport)
    (rc : Int) (l : Bool) (w : World)
    (hok : ∀ c ∈ sent w (sendResources ceiling env host p rc l w), c.err = none) :
    sentReports w (sendResources ceiling env host p rc l w) = schedule ceiling env p rc ∧
      (sendResources ceiling env host p rc l w).err = encodingError ceiling env p := by
  obtain ⟨-, -, -, h4⟩ := sent_log ceiling env host p rc l w
  rw [sendResources_err]
  rcases hr : (sendAll env host (schedule ceiling env p rc) w).1 with _ | e
  · simp only [hr] at h4 ⊢
    exact ⟨h4.1, trivial⟩
  · simp only [hr] at h4
    obtain ⟨cs0, c, hcs, hc, -⟩ := h4
    have := hok c (by rw [hcs]; simp)
    rw [hc] at this
    cases this

/-- When a call in the log failed, it is the last call, every earlier call
succeeded, and its error is the error returned. -/
theorem sent_of_failure (ceiling : Nat) (env : Env) (host : String) (p : PostureReport)
    (rc : Int) (l : Bool) (w : World) (c : Call) (e : String)
    (hc : c ∈ sent w (sendResources ceiling env host p rc l w)) (he : c.err = some e) :
    ∃ cs0, sent w (sendResources ceiling env host p rc l w) = cs0 ++ [c] ∧
      (∀ c1 ∈ cs0, c1.err = none) ∧
      (sendResources ceiling env host p rc l w).err = some e := by
  obtain ⟨-, -, -, h4⟩ := sent_log ceiling env host p rc l w
  rw [sendResources_err]
  rcases hr : (sendAll env host (schedule ceiling env p rc) w).1 with _ | e1
  · simp only [hr] at h4
    have := h4.2 c hc
    rw [he] at this
    cases this
  · simp only [hr] at h4 ⊢
    obtain ⟨cs0, c1, hcs, hc1, hall⟩ := h4
    rw [hcs, List.mem_append] at hc
    rcases hc with hc | hc
    · have := hall c hc
      rw [he] at this
      cases this
    · simp only [List.mem_singleton] at hc
      subst hc
      rw [he] at hc1
      cases hc1
      exact ⟨cs0, hcs, hall, rfl⟩

/-! ## The scan -/

theorem plan_ok (ceiling : Nat) (m : Item → Except String Bytes) :
    ∀ (xs : List Item) (a : Acc), (∀ x ∈ xs, ∃ r, m x = .ok r) →
      ∃ a1, (plan ceiling m xs a).2 = .ok a1 := by
  intro xs
  induction xs with
  | nil => intro a _; exact ⟨a, rfl⟩
  | cons x xs ih =>
    intro a h
    obtain ⟨r, hr⟩ := h x (by simp)
    have h1 : ∀ y ∈ xs, ∃ r, m y = .ok r := fun y hy => h y (by simp [hy])
    simp only [plan, hr]
    split
    · exact ih _ h1
    · exact ih _ h1

/-- The records of the closed accumulators and of the last one, in order, are
the records the scan started with followed by the records scanned. -/
theorem plan_flatten (ceiling : Nat) (m : Item → Except String Bytes) :
    ∀ (xs : List Item) (a a1 : Acc), (plan ceiling m xs a).2 = .ok a1 →
      ((plan ceiling m xs a).1.map Prod.fst).flatten ++ a1.Resources =
          a.Resources ++ xs.filterMap Sum.getLeft? ∧
        ((plan ceiling m xs a).1.map Prod.snd).flatten ++ a1.Results =
          a.Results ++ xs.filterMap Sum.getRight? := by
  intro xs
  induction xs with
  | nil =>
    intro a a1 h
    simp only [plan, Except.ok.injEq] at h
    subst h
    simp [plan]
  | cons x xs ih =>
    intro a a1 h
    simp only [plan] at h ⊢
    cases hm : m x with
    | error e => simp [hm] at h
    | ok r =>
      simp only [hm] at h ⊢
      by_cases hg : a.counter + r.length ≥ ceiling ∧ a.kindCount x > 0
      · simp only [hg, and_self, if_true] at h ⊢
        obtain ⟨h1, h2⟩ := ih _ a1 h
        cases x with
        | inl v =>
          simp only [Acc.push, List.nil_append, Nat.zero_add] at h1 h2 ⊢
          simp [h1, h2]
        | inr v =>
          simp only [Acc.push, List.nil_append, Nat.zero_add] at h1 h2 ⊢
          simp [h1, h2]
      · simp only [hg, if_false] at h ⊢
        obtain ⟨h1, h2⟩ := ih _ a1 h
        cases x with
        | inl v =>
          simp only [Acc.push] at h1 h2 ⊢
          simp [h1, h2]
        | inr v =>
          simp only [Acc.push] at h1 h2 ⊢
          simp [h1, h2]

theorem lefts_of_inl (R : List Resource) :
    (R.map (Sum.inl : Resource → Item)).filterMap Sum.getLeft? = R := by
  induction R with
  | nil => rfl
  | cons v R ih => simp [ih]

theorem lefts_of_inr (X : List Result) :
    (X.map (Sum.inr : Result → Item)).filterMap Sum.getLeft? = [] := by
  induction X with
  | nil => rfl
  | cons v X ih => simp [ih]

theorem rights_of_inl (R : List Resource) :
    (R.map (Sum.inl : Resource → Item)).filterMap Sum.getRight? = [] := by
  induction R with
  | nil => rfl
  | cons v R ih => simp [ih]

theorem rights_of_inr (X : List Result) :
    (X.map (Sum.inr : Result → Item)).filterMap Sum.getRight? = X := by
  induction X with
  | nil => rfl
  | cons v X ih => simp [ih]

theorem items_resources (p : PostureReport) :
    (items p).filterMap Sum.getLeft? = p.Resources := by
  rw [items, List.filterMap_append, lefts_of_inl, lefts_of_inr, List.append_nil]

theorem items_results (p : PostureReport) :
    (items p).filterMap Sum.getRight? = p.Results := by
  rw [items, List.filterMap_append, rights_of_inl, rights_of_inr, List.nil_append]

theorem stampSeq_resources (id guid cl : String) :
    ∀ (cs : List Chunk) (rc : Int),
      (stampSeq id guid cl cs rc).map (fun q => q.Resources) = cs.map Prod.fst := by
  intro cs
  induction cs with
  | nil => intro rc; rfl
  | cons c cs ih => intro rc; simp [stampSeq, ih]

theorem stampSeq_results (id guid cl : String) :
    ∀ (cs : List Chunk) (rc : Int),
      (stampSeq id guid cl cs rc).map (fun q => q.Results) = cs.map Prod.snd := by
  intro cs
  induction cs with
  | nil => intro rc; rfl
  | cons c cs ih => intro rc; simp [stampSeq, ih]

theorem marshalItem_ok (env : Env) (p : PostureReport)
    (hres : ∀ v ∈ p.Resources, ∃ r, env.marshalResource v = .ok r)
    (hresults : ∀ v ∈ p.Results, ∃ r, env.marshalResult v = .ok r) :
    ∀ x ∈ items p, ∃ r, marshalItem env x = .ok r := by
  intro x hx
  simp only [items, List.mem_append, List.mem_map] at hx
  rcases hx with ⟨v, hv, rfl⟩ | ⟨v, hv, rfl⟩
  · exact hres v hv
  · exact hresults v hv

theorem sendAll_single (env : Env) (host : String) (p : PostureReport) (w : World) :
    ∃ c, (sendAll env host [p] w).2 = w ++ [c] ∧ c.report = p := by
  obtain ⟨req, hlog⟩ := sendReport_log env host p p.PaginationInfo.ReportNumber
    p.PaginationInfo.IsLastReport w
  simp only [sendAll]
  rw [hlog]
  rcases (sendReport env host p p.PaginationInfo.ReportNumber
    p.PaginationInfo.IsLastReport w).1 with _ | e
  · exact ⟨_, rfl, rfl⟩
  · exact ⟨_, rfl, rfl⟩

/-- When the schedule is a single sub-report, it is the one sub-report sent. -/
theorem sentReports_single (ceiling : Nat) (env : Env) (host : String) (p q : PostureReport)
    (rc : Int) (l : Bool) (w : World) (h : schedule ceiling env p rc = [q]) :
    sentReports w (sendResources ceiling env host p rc l w) = [q] := by
  obtain ⟨c, hc, hq⟩ := sendAll_single env host q w
  simp [sentReports, sent, sendResources_world, h, hc, hq]

/-- Records that all fit under the ceiling are never flushed. -/
theorem plan_small (ceiling : Nat) (m : Item → Except String Bytes) :
    ∀ (xs : List Item) (a : Acc), (∀ x ∈ xs, ∃ r, m x = .ok r) →
      a.counter + (xs.map (recordSize m)).sum < ceiling →
      (plan ceiling m xs a).1 = [] := by
  intro xs
  induction xs with
  | nil => intro a _ _; rfl
  | cons x xs ih =>
    intro a h hs
    obtain ⟨r, hr⟩ := h x (by simp)
    have h1 : ∀ y ∈ xs, ∃ r, m y = .ok r := fun y hy => h y (by simp [hy])
    have hx : recordSize m x = r.length := by simp [recordSize, hr]
    simp only [List.map_cons, List.sum_cons, hx] at hs
    have hg : ¬ (a.counter + r.length ≥ ceiling ∧ a.kindCount x > 0) := by omega
    simp only [plan, hr, hg, if_false]
    apply ih _ h1
    cases x <;> simp only [Acc.push] <;> omega

theorem stampSeq_number (id guid cl : String) :
    ∀ (cs : List Chunk) (rc : Int) (i : Nat) (q : PostureReport),
      (stampSeq id guid cl cs rc)[i]? = some q →
        q.PaginationInfo.ReportNumber = rc + i ∧ q.PaginationInfo.IsLastReport = false := by
  intro cs
  induction cs with
  | nil => intro rc i q h; simp [stampSeq] at h
  | cons c cs ih =>
    intro rc i q h
    cases i with
    | zero =>
      simp only [stampSeq, List.getElem?_cons_zero, Option.some.injEq] at h
      subst h
      simp
    | succ i =>
      simp only [stampSeq, List.getElem?_cons_succ] at h
      obtain ⟨h1, h2⟩ := ih (rc + 1) i q h
      refine ⟨?_, h2⟩
      rw [h1]
      push_cast
      ring

/-- The sub-reports of the schedule are numbered from the counter on. -/
theorem schedule_number (ceiling : Nat) (env : Env) (p : PostureReport) (rc : Int) (i : Nat)
    (q : PostureReport) (h : (schedule ceiling env p rc)[i]? = some q) :
    q.PaginationInfo.ReportNumber = rc + i := by
  simp only [schedule] at h
  by_cases hi : i < (stampSeq p.ReportID p.CustomerGUID p.ClusterName
      (plan ceiling (marshalItem env) (items p) ⟨[], [], 0⟩).1 rc).length
  · rw [List.getElem?_append_left hi] at h
    exact (stampSeq_number _ _ _ _ _ _ _ h).1
  · rw [List.getElem?_append_right (by omega)] at h
    rw [stampSeq_length] at h hi
    rcases hf : (plan ceiling (marshalItem env) (items p) ⟨[], [], 0⟩).2 with e | a
    · simp [hf] at h
    · simp only [hf] at h
      have hi0 : i - (plan ceiling (marshalItem env) (items p) ⟨[], [], 0⟩).1.length = 0 := by
        by_contra hne
        rw [List.getElem?_eq_none (by simp; omega)] at h
        cases h
      rw [hi0] at h
      simp only [List.getElem?_cons_zero, Option.some.injEq] at h
      subst h
      simp only
      have : i = (plan ceiling (marshalItem env) (items p) ⟨[], [], 0⟩).1.length := by omega
      rw [this]

/-- The sub-reports sent are numbered from the counter on, whatever fails. -/
theorem sentReports_number (ceiling : Nat) (env : Env) (host : String) (p : PostureReport)
    (rc : Int) (l : Bool) (w : World) (i : Nat) (q : PostureReport)
    (h : (sentReports w (sendResources ceiling env host p rc l w))[i]? = some q) :
    q.PaginationInfo.ReportNumber = rc + i := by
  obtain ⟨-, ⟨t, ht⟩, -, -⟩ := sent_log ceiling env host p rc l w
  apply schedule_number ceiling env p rc i q
  rw [← ht]
  obtain ⟨hi, -⟩ := List.getElem?_eq_some.mp h
  rw [List.getElem?_append_left hi]
  exact h

theorem stampSeq_not_last (id guid cl : String) :
    ∀ (cs : List Chunk) (rc : Int), ∀ q ∈ stampSeq id guid cl cs rc,
      q.PaginationInfo.IsLastReport = false := by
  intro cs
  induction cs with
  | nil => intro rc q h; simp [stampSeq] at h
  | cons c cs ih =>
    intro rc q h
    simp only [stampSeq, List.mem_cons] at h
    rcases h with rfl | h
    · rfl
    · exact ih _ q h

theorem reportSize_eq (env : Env) (p : PostureReport) :
    reportSize env p = ((items p).map (recordSize (marshalItem env))).sum := rfl

/-- The schedule of a report whose records all serialize and together stay
under the ceiling: one final sub-report with all the records. -/
theorem schedule_small (ceiling : Nat) (env : Env) (p : PostureReport) (rc : Int)
    (hres : ∀ v ∈ p.Resources, ∃ r, env.marshalResource v = .ok r)
    (hresults : ∀ v ∈ p.Results, ∃ r, env.marshalResult v = .ok r)
    (hsmall : reportSize env p < ceiling) :
    schedule ceiling env p rc =
      [⟨p.ReportID, p.CustomerGUID, p.ClusterName, p.Resources, p.Results, ⟨rc, true⟩⟩] := by
  have hall := marshalItem_ok env p hres hresults
  have h0 := plan_small ceiling (marshalItem env) (items p) ⟨[], [], 0⟩ hall
    (by rw [reportSize_eq] at hsmall; simpa using hsmall)
  obtain ⟨a1, ha1⟩ := plan_ok ceiling (marshalItem env) (items p) ⟨[], [], 0⟩ hall
  obtain ⟨h1, h2⟩ := plan_flatten ceiling (marshalItem env) (items p) ⟨[], [], 0⟩ a1 ha1
  rw [h0, items_resources] at h1
  rw [h0, items_results] at h2
  simp only [List.map_nil, List.flatten_nil, List.nil_append] at h1 h2
  simp [schedule, h0, ha1, h1, h2, stampSeq]

theorem preparedCalls_eq (ceiling : Nat) (env : Env) (report : ReportEventReceiver)
    (p : PostureReport) (w : World) :
    preparedCalls w (prepareReport ceiling env report p w) =
      sent w (sendResources ceiling env
        (env.hostToString (env.initEventReceiverURL report).eventReceiverURL p.ReportID)
        p 0 false w) := rfl

theorem plan_inl_no_results (ceiling : Nat) (m : Item → Except String Bytes) :
    ∀ (R : List Resource) (a : Acc), a.Results = [] →
      (∀ c ∈ (plan ceiling m (R.map Sum.inl) a).1, c.2 = []) ∧
        ∀ a1, (plan ceiling m (R.map Sum.inl) a).2 = .ok a1 → a1.Results = [] := by
  intro R
  induction R with
  | nil =>
    intro a ha
    simp only [List.map_nil, plan, List.not_mem_nil, false_implies, implies_true,
      Except.ok.injEq, true_and]
    intro a1 h
    rw [← h]
    exact ha
  | cons v R ih =>
    intro a ha
    simp only [List.map_cons, plan]
    cases hm : m (Sum.inl v) with
    | error e => simp
    | ok r =>
      simp only
      split
      · obtain ⟨h1, h2⟩ := ih (Acc.push ⟨[], [], 0⟩ (Sum.inl v) r.length) rfl
        refine ⟨?_, h2⟩
        intro c hc
        simp only [List.mem_cons] at hc
        rcases hc with rfl | hc
        · exact ha
        · exact h1 c hc
      · exact ih (a.push (Sum.inl v) r.length) ha

theorem plan_inr_no_resources (ceiling : Nat) (m : Item → Except String Bytes) :
    ∀ (X : List Result) (a : Acc), a.Resources = [] →
      (∀ c ∈ (plan ceiling m (X.map Sum.inr) a).1, c.1 = []) ∧
        ∀ a1, (plan ceiling m (X.map Sum.inr) a).2 = .ok a1 → a1.Resources = [] := by
  intro X
  induction X with
  | nil =>
    intro a ha
    simp only [List.map_nil, plan, List.not_mem_nil, false_implies, implies_true,
      Except.ok.injEq, true_and]
    intro a1 h
    rw [← h]
    exact ha
  | cons v X ih =>
    intro a ha
    simp only [List.map_cons, plan]
    cases hm : m (Sum.inr v) with
    | error e => simp
    | ok r =>
      simp only
      split
      · obtain ⟨h1, h2⟩ := ih (Acc.push ⟨[], [], 0⟩ (Sum.inr v) r.length) rfl
        refine ⟨?_, h2⟩
        intro c hc
        simp only [List.mem_cons] at hc
        rcases hc with rfl | hc
        · exact ha
        · exact h1 c hc
      · exact ih (a.push (Sum.inr v) r.length) ha

/-- In the pass over the Results only the first closed accumulator can hold
Resources; once one is closed, the last accumulator holds none. -/
theorem plan_inr_tail (ceiling : Nat) (m : Item → Except String Bytes) :
    ∀ (X : List Result) (a : Acc),
      (∀ c ∈ (plan ceiling m (X.map Sum.inr) a).1.tail, c.1 = []) ∧
        ((plan ceiling m (X.map Sum.inr) a).1 ≠ [] →
          ∀ a1, (plan ceiling m (X.map Sum.inr) a).2 = .ok a1 → a1.Resources = []) := by
  intro X
  induction X with
  | nil => intro a; simp [plan]
  | cons v X ih =>
    intro a
    simp only [List.map_cons, plan]
    cases hm : m (Sum.inr v) with
    | error e => simp
    | ok r =>
      simp only
      split
      · obtain ⟨h1, h2⟩ :=
          plan_inr_no_resources ceiling m X (Acc.push ⟨[], [], 0⟩ (Sum.inr v) r.length) rfl
        exact ⟨by simpa using h1, fun _ => h2⟩
      · exact ih (a.push (Sum.inr v) r.length)

theorem pairwise_of_all_left {α : Type} (R : α → α → Prop) (P : α → Prop)
    (hR : ∀ c d, P c → R c d) : ∀ (l : List α), (∀ c ∈ l, P c) → l.Pairwise R := by
  intro l
  induction l with
  | nil => intro _; exact List.Pairwise.nil
  | cons c l ih =>
    intro h
    refine List.Pairwise.cons (fun d _ => hR c d (h c (by simp))) (ih fun d hd => h d (by simp [hd]))

theorem pairwise_of_all_right {α : Type} (R : α → α → Prop) (Q : α → Prop)
    (hR : ∀ c d, Q d → R c d) : ∀ (l : List α), (∀ c ∈ l.tail, Q c) → l.Pairwise R := by
  intro l
  induction l with
  | nil => intro _; exact List.Pairwise.nil
  | cons c l ih =>
    intro h
    simp only [List.tail_cons] at h
    refine List.Pairwise.cons (fun d hd => hR c d (h d hd)) (ih fun d hd => h d ?_)
    exact List.mem_of_mem_tail hd

theorem stampSeq_chunkOf (id guid cl : String) :
    ∀ (cs : List Chunk) (rc : Int), (stampSeq id guid cl cs rc).map chunkOf = cs := by
  intro cs
  induction cs with
  | nil => intro rc; rfl
  | cons c cs ih => intro rc; simp [stampSeq, ih, chunkOf]

/-- The schedule respects the order of the passes. -/
theorem schedule_pass_order (ceiling : Nat) (env : Env) (p : PostureReport) (rc : Int) :
    ((schedule ceiling env p rc).map chunkOf).Pairwise PassOrder := by
  have hL : ∀ c d : Chunk, c.2 = [] → PassOrder c d := fun c d h hcd => hcd.1 h
  have hR : ∀ c d : Chunk, d.1 = [] → PassOrder c d := fun c d h hcd => hcd.2 h
  obtain ⟨h1, h2⟩ := plan_inl_no_results ceiling (marshalItem env) p.Resources ⟨[], [], 0⟩ rfl
  simp only [schedule, items, plan_append, List.map_append, stampSeq_chunkOf]
  rcases hf1 : (plan ceiling (marshalItem env) (p.Resources.map Sum.inl) ⟨[], [], 0⟩).2
    with e1 | a1
  · simp only [List.map_nil, List.append_nil]
    exact pairwise_of_all_left PassOrder (fun c => c.2 = []) hL _ h1
  · simp only
    obtain ⟨h3, h4⟩ := plan_inr_tail ceiling (marshalItem env) p.Results a1
    rw [List.append_assoc, List.pairwise_append]
    refine ⟨pairwise_of_all_left PassOrder (fun c => c.2 = []) hL _ h1, ?_,
      fun c hc d _ => hL c d (h1 c hc)⟩
    apply pairwise_of_all_right PassOrder (fun c => c.1 = []) hR
    intro c hc
    rcases hcs : (plan ceiling (marshalItem env) (p.Results.map Sum.inr) a1).1 with _ | ⟨c0, cs⟩
    · rw [hcs] at hc
      rcases hf2 : (plan ceiling (marshalItem env) (p.Results.map Sum.inr) a1).2 with e2 | a2
      · simp [hf2] at hc
      · simp [hf2] at hc
    · rw [hcs] at hc h3 h4
      simp only [List.cons_append, List.tail_cons, List.mem_append] at hc
      rcases hc with hc | hc
      · exact h3 c (by simpa using hc)
      · rcases hf2 : (plan ceiling (marshalItem env) (p.Results.map Sum.inr) a1).2 with e2 | a2
        · simp [hf2] at hc
        · simp only [hf2, List.map_cons, List.map_nil, List.mem_singleton] at hc
          rw [hc]
          exact h4 (by simp) a2 hf2

/-- The sub-reports sent respect the order of the passes, whatever fails. -/
theorem sentReports_pass_order (ceiling : Nat) (env : Env) (host : String) (p : PostureReport)
    (rc : Int) (l : Bool) (w : World) :
    ((sentReports w (sendResources ceiling env host p rc l w)).map chunkOf).Pairwise
      PassOrder := by
  obtain ⟨-, h, -, -⟩ := sent_log ceiling env host p rc l w
  exact List.Pairwise.sublist (h.sublist.map chunkOf) (schedule_pass_order ceiling env p rc)

theorem passOrder_at (l : List PostureReport) (h : (l.map chunkOf).Pairwise PassOrder)
    (i j : Nat) (qi qj : PostureReport) (hij : i < j) (hi : l[i]? = some qi)
    (hj : l[j]? = some qj) : ¬ (qi.Results ≠ [] ∧ qj.Resources ≠ []) := by
  obtain ⟨hi1, hi2⟩ := List.getElem?_eq_some.mp hi
  obtain ⟨hj1, hj2⟩ := List.getElem?_eq_some.mp hj
  have := List.pairwise_iff_getElem.mp h i j (by simpa using hi1) (by simpa using hj1) hij
  simp only [List.getElem_map, hi2, hj2] at this
  exact this

/-- What a log entry says about the call it records: either the sub-report
could not be serialized and no request was issued, or one request was issued
and the error is the transport's, with the host and the response text. -/
theorem Logged_cases (env : Env) (host : String) (before : World) (c : Call)
    (h : Logged env host before c) :
    (∃ merr, env.marshalReport c.report = .error merr ∧ c.request = none ∧
        c.err = some ("in 'sendReport' failed to json.Marshal, reason: " ++ merr)) ∨
      (∃ body msg, env.marshalReport c.report = .ok body ∧ c.request = some (host, body) ∧
        ((env.httpPost (requests before) host body = (msg, none) ∧ c.err = none) ∨
          ∃ terr, env.httpPost (requests before) host body = (msg, some terr) ∧
            c.err = some (host ++ ", " ++ terr ++ ":" ++ msg))) := by
  obtain ⟨q, req, err⟩ := c
  simp only [Logged, sendReport] at h
  have hq : ({ q with PaginationInfo :=
      ⟨q.PaginationInfo.ReportNumber, q.PaginationInfo.IsLastReport⟩ } : PostureReport) = q := rfl
  simp only [hq] at h
  cases hm : env.marshalReport q with
  | error merr =>
    left
    simp only [hm, Prod.mk.injEq, List.append_cancel_left_eq, List.cons.injEq, Call.mk.injEq,
      and_true, true_and] at h
    exact ⟨merr, rfl, h.2.1.symm, h.1.symm⟩
  | ok body =>
    right
    simp only [hm] at h
    rcases hp : env.httpPost (requests before) host body with ⟨msg, _ | terr⟩
    · simp only [hp, Prod.mk.injEq, List.append_cancel_left_eq, List.cons.injEq, Call.mk.injEq,
        and_true, true_and] at h
      exact ⟨body, msg, rfl, h.2.1.symm, Or.inl ⟨hp, h.1.symm⟩⟩
    · simp only [hp, Prod.mk.injEq, List.append_cancel_left_eq, List.cons.injEq, Call.mk.injEq,
        and_true, true_and] at h
      exact ⟨body, msg, rfl, h.2.1.symm, Or.inr ⟨terr, hp, h.1.symm⟩⟩

/-- The plan reads the environment only through the serialization of the records. -/
theorem schedule_congr (ceiling : Nat) (env env1 : Env) (p : PostureReport) (rc : Int)
    (hres : env1.marshalResource = env.marshalResource)
    (hresults : env1.marshalResult = env.marshalResult) :
    schedule ceiling env1 p rc = schedule ceiling env p rc := by
  have : marshalItem env1 = marshalItem env := by
    funext x
    cases x with
    | inl v => simp [marshalItem, hres]
    | inr v => simp [marshalItem, hresults]
  simp only [schedule, this]

/-- The scan of records the first unserializable of which is `y`: the flushes
of the records before `y`, then the error of `y`. -/
theorem plan_bad (ceiling : Nat) (m : Item → Except String Bytes) (xs zs : List Item)
    (y : Item) (e : String) (a : Acc) (hxs : ∀ x ∈ xs, ∃ r, m x = .ok r)
    (hy : m y = .error e) :
    plan ceiling m (xs ++ y :: zs) a = ((plan ceiling m xs a).1, .error (itemError y e)) := by
  obtain ⟨a1, ha1⟩ := plan_ok ceiling m xs a hxs
  rw [plan_append, ha1]
  simp [plan, hy]

/-- The schedule of a report whose first unserializable record is `y`, next to
the schedule of the report cut before `y`: the same flushes, without the final
sub-report. -/
theorem schedule_bad (ceiling : Nat) (env : Env) (p p1 : PostureReport) (rc : Int)
    (xs zs : List Item) (y : Item) (e : String)
    (hitems : items p = xs ++ y :: zs) (hitems1 : items p1 = xs)
    (hid : p1.ReportID = p.ReportID) (hguid : p1.CustomerGUID = p.CustomerGUID)
    (hcl : p1.ClusterName = p.ClusterName)
    (hxs : ∀ x ∈ xs, ∃ r, marshalItem env x = .ok r) (hy : marshalItem env y = .error e) :
    encodingError ceiling env p = some (itemError y e) ∧
      (∀ q ∈ schedule ceiling env p rc, q.PaginationInfo.IsLastReport = false) ∧
      ∃ fin, schedule ceiling env p1 rc = schedule ceiling env p rc ++ [fin] := by
  obtain ⟨a1, ha1⟩ := plan_ok ceiling (marshalItem env) xs ⟨[], [], 0⟩ hxs
  have hb := plan_bad ceiling (marshalItem env) xs zs y e ⟨[], [], 0⟩ hxs hy
  refine ⟨by simp [encodingError, hitems, hb], ?_, ?_⟩
  · intro q hq
    simp only [schedule, hitems, hb, List.append_nil] at hq
    exact stampSeq_not_last _ _ _ _ _ q hq
  · simp only [schedule, hitems, hitems1, hb, ha1, hid, hguid, hcl, List.append_nil]
    exact ⟨_, rfl⟩

theorem sendAll_none_of_all_ok (ceiling : Nat) (env : Env) (host : String) (p : PostureReport)
    (rc : Int) (l : Bool) (w : World)
    (hok : ∀ c ∈ sent w (sendResources ceiling env host p rc l w), c.err = none) :
    (sendAll env host (schedule ceiling env p rc) w).1 = none := by
  obtain ⟨-, -, -, h4⟩ := sent_log ceiling env host p rc l w
  rcases hr : (sendAll env host (schedule ceiling env p rc) w).1 with _ | e
  · rfl
  · simp only [hr] at h4
    obtain ⟨cs0, c, hcs, hc, -⟩ := h4
    have := hok c (by rw [hcs]; simp)
    rw [hc] at this
    cases this

/-- A serialization failure, for a record of either pass: the error names the
record, nothing marked as the last sub-report is sent, and the calls made are
those of the run on the records before the failing one, without its last. -/
theorem encoding_failure (ceiling : Nat) (env : Env) (host : String) (p p1 : PostureReport)
    (rc : Int) (l : Bool) (w : World) (xs zs : List Item) (y : Item) (e : String)
    (hitems : items p = xs ++ y :: zs) (hitems1 : items p1 = xs)
    (hid : p1.ReportID = p.ReportID) (hguid : p1.CustomerGUID = p.CustomerGUID)
    (hcl : p1.ClusterName = p.ClusterName)
    (hxs : ∀ x ∈ xs, ∃ r, marshalItem env x = .ok r) (hy : marshalItem env y = .error e)
    (hok : ∀ c ∈ sent w (sendResources ceiling env host p rc l w), c.err = none) :
    (sendResources ceiling env host p rc l w).err = some (itemError y e) ∧
      (∀ c ∈ sent w (sendResources ceiling env host p rc l w),
        c.report.PaginationInfo.IsLastReport = false) ∧
      sent w (sendResources ceiling env host p rc l w) =
        (sent w (sendResources ceiling env host p1 rc l w)).dropLast := by
  obtain ⟨h1, h2, fin, h3⟩ :=
    schedule_bad ceiling env p p1 rc xs zs y e hitems hitems1 hid hguid hcl hxs hy
  obtain ⟨hs, herr⟩ := sent_of_all_ok ceiling env host p rc l w hok
  have hnone := sendAll_none_of_all_ok ceiling env host p rc l w hok
  obtain ⟨hworld, -, -, -⟩ := sent_log ceiling env host p rc l w
  refine ⟨by rw [herr, h1], ?_, ?_⟩
  · intro c hc
    apply h2
    rw [← hs]
    exact List.mem_map_of_mem Call.report hc
  · have hw1 : (sendResources ceiling env host p1 rc l w).world =
        (sendAll env host [fin] (sendResources ceiling env host p rc l w).world).2 := by
      rw [sendResources_world, h3, sendAll_append, sendResources_world]
      rcases hsa : sendAll env host (schedule ceiling env p rc) w with ⟨r, w1⟩
      rw [hsa] at hnone
      simp only at hnone
      subst hnone
      rfl
    obtain ⟨c, hc, -⟩ := sendAll_single env host fin (sendResources ceiling env host p rc l w).world
    rw [hc, hworld] at hw1
    have : sent w (sendResources ceiling env host p1 rc l w) =
        sent w (sendResources ceiling env host p rc l w) ++ [c] := by
      rw [sent, hw1, List.append_assoc, List.drop_left]
    rw [this, List.dropLast_concat]

theorem payload_length (n : Nat) : (payload n).length = n :=
  List.length_replicate n 0

theorem sendAll_sampleEnv (host : String) :
    ∀ (ps : List PostureReport) (w : World), (sendAll sampleEnv host ps w).1 = none := by
  intro ps
  induction ps with
  | nil => intro w; rfl
  | cons p ps ih =>
    intro w
    simp only [sendAll, sendReport, sampleEnv]
    exact ih _

/-- With collaborators that never fail, the whole schedule is sent. -/
theorem sentReports_sampleEnv (ceiling : Nat) (host : String) (p : PostureReport) (rc : Int)
    (l : Bool) (w : World) :
    sentReports w (sendResources ceiling sampleEnv host p rc l w) =
      schedule ceiling sampleEnv p rc := by
  obtain ⟨-, -, -, h4⟩ := sent_log ceiling sampleEnv host p rc l w
  simp only [sendAll_sampleEnv] at h4
  exact h4.1

/-- One Resource and one Result are never separated: the flush test of the
pass over the Results asks for a Result in the accumulator, and there is none
when the first Result arrives. -/
theorem schedule_one_each (ceiling : Nat) (env : Env) (id guid cl : String)
    (pg : PaginationMarks) (rc : Int) (v : Resource) (x : Result) (b1 b2 : Bytes)
    (h1 : env.marshalResource v = .ok b1) (h2 : env.marshalResult x = .ok b2) :
    schedule ceiling env ⟨id, guid, cl, [v], [x], pg⟩ rc =
        [⟨id, guid, cl, [v], [x], ⟨rc, true⟩⟩] ∧
      reportSize env ⟨id, guid, cl, [v], [x], ⟨rc, true⟩⟩ = b1.length + b2.length ∧
      recordSize (marshalItem env) (Sum.inl v) = b1.length ∧
      recordSize (marshalItem env) (Sum.inr x) = b2.length ∧
      recordCount ⟨id, guid, cl, [v], [x], ⟨rc, true⟩⟩ = 2 := by
  refine ⟨?_, ?_, ?_, ?_, rfl⟩
  · simp [schedule, items, plan, marshalItem, h1, h2, Acc.push, Acc.kindCount, stampSeq]
  · simp [reportSize, items, recordSize, marshalItem, h1, h2]
  · simp [recordSize, marshalItem, h1]
  · simp [recordSize, marshalItem, h2]

/-- Five Resources of one size `n`, with `n` below the ceiling and `2 * n` at or
above it: every Resource is sent alone. -/
theorem schedule_five_equal (ceiling n : Nat) (env : Env) (id guid cl : String)
    (pg : PaginationMarks) (v1 v2 v3 v4 v5 : Resource) (b1 b2 b3 b4 b5 : Bytes)
    (h1 : env.marshalResource v1 = .ok b1) (h2 : env.marshalResource v2 = .ok b2)
    (h3 : env.marshalResource v3 = .ok b3) (h4 : env.marshalResource v4 = .ok b4)
    (h5 : env.marshalResource v5 = .ok b5)
    (l1 : b1.length = n) (l2 : b2.length = n) (l3 : b3.length = n) (l4 : b4.length = n)
    (l5 : b5.length = n) (hn : n < ceiling) (h2n : ceiling ≤ n + n) :
    schedule ceiling env ⟨id, guid, cl, [v1, v2, v3, v4, v5], [], pg⟩ 0 =
      [⟨id, guid, cl, [v1], [], ⟨0, false⟩⟩, ⟨id, guid, cl, [v2], [], ⟨1, false⟩⟩,
        ⟨id, guid, cl, [v3], [], ⟨2, false⟩⟩, ⟨id, guid, cl, [v4], [], ⟨3, false⟩⟩,
        ⟨id, guid, cl, [v5], [], ⟨4, true⟩⟩] := by
  have hg : ¬ (ceiling ≤ n) := by omega
  simp [schedule, items, plan, marshalItem, h1, h2, h3, h4, h5, l1, l2, l3, l4, l5, Acc.push,
    Acc.kindCount, stampSeq, hg, h2n]

/-- The scenario of five Resources of 500,000 bytes under a ceiling of 1,000,000
bytes: the sub-reports sent. -/
theorem scenario_reports (id1 id2 id3 id4 id5 : String) :
    sentReports [] (sendResources 1000000 sampleEnv "host"
        ⟨"id", "guid", "cluster",
          [⟨id1, payload 500000⟩, ⟨id2, payload 500000⟩,
            ⟨id3, payload 500000⟩, ⟨id4, payload 500000⟩,
            ⟨id5, payload 500000⟩], [], ⟨0, false⟩⟩ 0 false []) =
      [⟨"id", "guid", "cluster", [⟨id1, payload 500000⟩], [], ⟨0, false⟩⟩,
        ⟨"id", "guid", "cluster", [⟨id2, payload 500000⟩], [], ⟨1, false⟩⟩,
        ⟨"id", "guid", "cluster", [⟨id3, payload 500000⟩], [], ⟨2, false⟩⟩,
        ⟨"id", "guid", "cluster", [⟨id4, payload 500000⟩], [], ⟨3, false⟩⟩,
        ⟨"id", "guid", "cluster", [⟨id5, payload 500000⟩], [], ⟨4, true⟩⟩] := by
  rw [sentReports_sampleEnv]
  exact schedule_five_equal 1000000 500000 sampleEnv "id" "guid" "cluster" ⟨0, false⟩
    ⟨id1, payload 500000⟩ ⟨id2, payload 500000⟩ ⟨id3, payload 500000⟩ ⟨id4, payload 500000⟩
    ⟨id5, payload 500000⟩ (payload 500000) (payload 500000) (payload 500000) (payload 500000)
    (payload 500000) rfl rfl rfl rfl rfl (payload_length _)
    (payload_length _) (payload_length _) (payload_length _)
    (payload_length _) (by omega) (by omega)

/-- When `sendResources` returns `nil`, no record failed to serialize, the
whole schedule was sent and every send succeeded. -/
theorem sent_of_nil (ceiling : Nat) (env : Env) (host : String) (p : PostureReport)
    (rc : Int) (l : Bool) (w : World) (h : (sendResources ceiling env host p rc l w).err = none) :
    encodingError ceiling env p = none ∧
      sentReports w (sendResources ceiling env host p rc l w) = schedule ceiling env p rc ∧
      ∀ c ∈ sent w (sendResources ceiling env host p rc l w), c.err = none := by
  obtain ⟨-, -, -, h4⟩ := sent_log ceiling env host p rc l w
  rw [sendResources_err] at h
  rcases hr : (sendAll env host (schedule ceiling env p rc) w).1 with _ | e
  · simp only [hr] at h h4
    exact ⟨h, h4.1, h4.2⟩
  · simp [hr] at h

/-- When no record fails to serialize, the schedule ends with the sub-report
marked as the last one. -/
theorem schedule_last (ceiling : Nat) (env : Env) (p : PostureReport) (rc : Int)
    (h : encodingError ceiling env p = none) :
    ∃ init last, schedule ceiling env p rc = init ++ [last] ∧
      last.PaginationInfo.IsLastReport = true ∧
      ∀ q ∈ init, q.PaginationInfo.IsLastReport = false := by
  simp only [encodingError] at h
  rcases hf : (plan ceiling (marshalItem env) (items p) ⟨[], [], 0⟩).2 with e | a
  · simp [hf] at h
  · simp only [schedule, hf]
    exact ⟨_, _, rfl, rfl, stampSeq_not_last _ _ _ _ _⟩

theorem requests_append (w : World) (c : Call) :
    requests (w ++ [c]) = requests w ++ c.request.toList := by
  simp only [requests, List.filterMap_append]
  cases h : c.request <;> simp [List.filterMap, h]

/-! ## Invariants of the scan -/

theorem closed_nil (ceiling : Nat) (m : Item → Except String Bytes) (a : Acc) :
    closed ceiling m [] a = [(a.Resources, a.Results)] := rfl

theorem closed_cons_error (ceiling : Nat) (m : Item → Except String Bytes) (x : Item)
    (xs : List Item) (a : Acc) (e : String) (hm : m x = .error e) :
    closed ceiling m (x :: xs) a = [] := by
  simp [closed, plan, hm]

theorem closed_cons_flush (ceiling : Nat) (m : Item → Except String Bytes) (x : Item)
    (xs : List Item) (a : Acc) (r : Bytes) (hm : m x = .ok r)
    (hg : a.counter + r.length ≥ ceiling ∧ a.kindCount x > 0) :
    closed ceiling m (x :: xs) a =
      (a.Resources, a.Results) :: closed ceiling m xs (Acc.push ⟨[], [], 0⟩ x r.length) := by
  simp only [closed, plan, hm, hg, and_self, if_true, List.cons_append]

theorem closed_cons_keep (ceiling : Nat) (m : Item → Except String Bytes) (x : Item)
    (xs : List Item) (a : Acc) (r : Bytes) (hm : m x = .ok r)
    (hg : ¬ (a.counter + r.length ≥ ceiling ∧ a.kindCount x > 0)) :
    closed ceiling m (x :: xs) a = closed ceiling m xs (a.push x r.length) := by
  simp only [closed, plan, hm, hg, if_false]

theorem schedule_chunks (ceiling : Nat) (env : Env) (p : PostureReport) (rc : Int) :
    (schedule ceiling env p rc).map chunkOf =
      closed ceiling (marshalItem env) (items p) ⟨[], [], 0⟩ := by
  simp only [schedule, closed, List.map_append, stampSeq_chunkOf]
  rcases (plan ceiling (marshalItem env) (items p) ⟨[], [], 0⟩).2 with e | a <;> rfl

theorem ordered_start (p : PostureReport) : Ordered ⟨[], [], 0⟩ (items p) := by
  refine ⟨fun h => absurd rfl h, ?_⟩
  simp only [items, List.pairwise_append, List.pairwise_map]
  refine ⟨?_, ?_, ?_⟩
  · exact List.pairwise_of_forall (fun x y h => by simp at h)
  · exact List.pairwise_of_forall (fun x y _ => rfl)
  · intro x hx y hy h
    obtain ⟨v, -, rfl⟩ := List.mem_map.mp hx
    simp at h

theorem tracked_start (ceiling : Nat) (m : Item → Except String Bytes) :
    Tracked ceiling m ⟨[], [], 0⟩ := by
  refine ⟨by simp [chunkSize], ?_⟩
  intro h
  simp at h

theorem ordered_tail (a a1 : Acc) (x : Item) (xs : List Item) (h : Ordered a (x :: xs))
    (h1 : a1.Results ≠ [] → x.isRight = true) : Ordered a1 xs := by
  obtain ⟨-, hp⟩ := h
  rw [List.pairwise_cons] at hp
  exact ⟨fun hne y hy => hp.1 y hy (h1 hne), hp.2⟩

theorem ordered_keep (a : Acc) (x : Item) (xs : List Item) (n : Nat)
    (h : Ordered a (x :: xs)) : Ordered (a.push x n) xs := by
  apply ordered_tail a _ x xs h
  intro hne
  cases x with
  | inl v =>
    simp only [Acc.push] at hne
    exact h.1 hne _ (by simp)
  | inr v => rfl

theorem ordered_flush (a : Acc) (x : Item) (xs : List Item) (n : Nat)
    (h : Ordered a (x :: xs)) : Ordered (Acc.push ⟨[], [], 0⟩ x n) xs := by
  apply ordered_tail a _ x xs h
  intro hne
  cases x with
  | inl v => simp [Acc.push] at hne
  | inr v => rfl

theorem tracked_flush (ceiling : Nat) (m : Item → Except String Bytes) (x : Item) (r : Bytes)
    (hm : m x = .ok r) : Tracked ceiling m (Acc.push ⟨[], [], 0⟩ x r.length) := by
  cases x with
  | inl v =>
    refine ⟨by simp [Acc.push, chunkSize, recordSize, hm], ?_⟩
    intro h
    simp [Acc.push] at h
  | inr v =>
    refine ⟨by simp [Acc.push, chunkSize, recordSize, hm], ?_⟩
    intro h
    simp [Acc.push] at h

theorem tracked_keep (ceiling : Nat) (m : Item → Except String Bytes) (a : Acc) (x : Item)
    (xs : List Item) (r : Bytes) (hm : m x = .ok r) (ho : Ordered a (x :: xs))
    (ht : Tracked ceiling m a)
    (hg : ¬ (a.counter + r.length ≥ ceiling ∧ a.kindCount x > 0)) :
    Tracked ceiling m (a.push x r.length) := by
  obtain ⟨hc, hs⟩ := ht
  cases x with
  | inl v =>
    have hX : a.Results = [] := by
      by_contra hne
      have := ho.1 hne (Sum.inl v) (by simp)
      simp at this
    refine ⟨?_, ?_⟩
    · simp only [Acc.push, chunkSize, hX, List.map_nil, List.append_nil, List.map_append,
        List.map_cons, List.sum_append, List.sum_cons, List.sum_nil] at hc ⊢
      simp only [recordSize, hm]
      omega
    · intro h
      simp only [Acc.push, hX, List.length_nil, List.length_append, List.length_singleton,
        true_and] at h
      simp only [Acc.kindCount] at hg
      simp only [Acc.push]
      omega
  | inr v =>
    refine ⟨?_, ?_⟩
    · simp only [Acc.push, chunkSize, List.map_append, List.map_cons, List.map_nil,
        List.sum_append, List.sum_cons, List.sum_nil] at hc ⊢
      simp only [recordSize, hm]
      omega
    · intro h
      simp only [Acc.push, List.length_append, List.length_singleton, List.append_eq_nil,
        List.cons_ne_self, and_false, false_and, or_false] at h
      simp only [Acc.kindCount] at hg
      simp only [Acc.push]
      omega

/-- The size guarantee of the scan: an accumulator handed over with two
Results, or with no Result and two Resources, is under the ceiling. -/
theorem closed_size_bound (ceiling : Nat) (m : Item → Except String Bytes) :
    ∀ (xs : List Item) (a : Acc), Ordered a xs → Tracked ceiling m a →
      ∀ c ∈ closed ceiling m xs a,
        (2 ≤ c.2.length ∨ (c.2 = [] ∧ 2 ≤ c.1.length)) → chunkSize m c < ceiling := by
  intro xs
  induction xs with
  | nil =>
    intro a _ ht c hc h
    rw [closed_nil, List.mem_singleton] at hc
    subst hc
    rw [← ht.1]
    exact ht.2 h
  | cons x xs ih =>
    intro a ho ht c hc h
    cases hm : m x with
    | error e => simp [closed_cons_error ceiling m x xs a e hm] at hc
    | ok r =>
      by_cases hg : a.counter + r.length ≥ ceiling ∧ a.kindCount x > 0
      · rw [closed_cons_flush ceiling m x xs a r hm hg, List.mem_cons] at hc
        rcases hc with rfl | hc
        · rw [← ht.1]
          exact ht.2 h
        · exact ih _ (ordered_flush a x xs r.length ho) (tracked_flush ceiling m x r hm) c hc h
      · rw [closed_cons_keep ceiling m x xs a r hm hg] at hc
        exact ih _ (ordered_keep a x xs r.length ho)
          (tracked_keep ceiling m a x xs r hm ho ht hg) c hc h

theorem firstItem_push (a : Acc) (x x0 : Item) (xs : List Item) (n : Nat)
    (ho : Ordered a (x :: xs)) (h : firstItem (a.Resources, a.Results) = some x0) :
    firstItem ((a.push x n).Resources, (a.push x n).Results) = some x0 := by
  obtain ⟨R, X, c⟩ := a
  cases x with
  | inl v =>
    have hX : X = [] := by
      by_contra hne
      have := ho.1 hne (Sum.inl v) (by simp)
      simp at this
    subst hX
    cases R with
    | nil => simp [firstItem] at h
    | cons r0 R => simpa [firstItem, Acc.push] using h
  | inr v =>
    cases R with
    | nil =>
      cases X with
      | nil => simp [firstItem] at h
      | cons x1 X => simpa [firstItem, Acc.push] using h
    | cons r0 R => simpa [firstItem, Acc.push] using h

/-- The first record of a non-empty accumulator stays the first record of the
next accumulator handed over. -/
theorem closed_head (ceiling : Nat) (m : Item → Except String Bytes) :
    ∀ (xs : List Item) (a : Acc) (x0 : Item), Ordered a xs →
      firstItem (a.Resources, a.Results) = some x0 →
      ∀ c ∈ (closed ceiling m xs a).head?, firstItem c = some x0 := by
  intro xs
  induction xs with
  | nil =>
    intro a x0 _ h c hc
    simp only [closed_nil, List.head?_cons, Option.mem_def, Option.some.injEq] at hc
    subst hc
    exact h
  | cons x xs ih =>
    intro a x0 ho h c hc
    cases hm : m x with
    | error e => simp [closed_cons_error ceiling m x xs a e hm] at hc
    | ok r =>
      by_cases hg : a.counter + r.length ≥ ceiling ∧ a.kindCount x > 0
      · simp only [closed_cons_flush ceiling m x xs a r hm hg, List.head?_cons, Option.mem_def,
          Option.some.injEq] at hc
        subst hc
        exact h
      · rw [closed_cons_keep ceiling m x xs a r hm hg] at hc
        exact ih _ x0 (ordered_keep a x xs r.length ho)
          (firstItem_push a x x0 xs r.length ho h) c hc

/-- Greedy maximality of the scan: between two accumulators handed over one
after the other, the first one plus the first record of the second reaches
the ceiling. -/
theorem closed_tight (ceiling : Nat) (m : Item → Except String Bytes) :
    ∀ (xs : List Item) (a : Acc), Ordered a xs → Tracked ceiling m a →
      (closed ceiling m xs a).Chain' (Tight ceiling m) := by
  intro xs
  induction xs with
  | nil =>
    intro a _ _
    rw [closed_nil]
    exact List.chain'_singleton _
  | cons x xs ih =>
    intro a ho ht
    cases hm : m x with
    | error e =>
      rw [closed_cons_error ceiling m x xs a e hm]
      exact List.chain'_nil
    | ok r =>
      by_cases hg : a.counter + r.length ≥ ceiling ∧ a.kindCount x > 0
      · rw [closed_cons_flush ceiling m x xs a r hm hg, List.chain'_cons']
        refine ⟨?_, ih _ (ordered_flush a x xs r.length ho) (tracked_flush ceiling m x r hm)⟩
        intro d hd
        have hfirst : firstItem ((Acc.push ⟨[], [], 0⟩ x r.length).Resources,
            (Acc.push ⟨[], [], 0⟩ x r.length).Results) = some x := by
          cases x <;> rfl
        refine ⟨x, closed_head ceiling m xs _ x (ordered_flush a x xs r.length ho) hfirst d hd, ?_⟩
        have hx : recordSize m x = r.length := by simp [recordSize, hm]
        rw [← ht.1, hx]
        exact hg.1
      · rw [closed_cons_keep ceiling m x xs a r hm hg]
        exact ih _ (ordered_keep a x xs r.length ho) (tracked_keep ceiling m a x xs r hm ho ht hg)

theorem chain_at {α : Type} (R : α → α → Prop) :
    ∀ (l : List α) (k : Nat) (a b : α), l.Chain' R → l[k]? = some a → l[k + 1]? = some b →
      R a b := by
  intro l
  induction l with
  | nil => intro k a b _ h; simp at h
  | cons x l ih =>
    intro k a b hc ha hb
    rw [List.chain'_cons'] at hc
    cases k with
    | zero =>
      simp only [List.getElem?_cons_zero, Option.some.injEq] at ha
      simp only [List.getElem?_cons_succ] at hb
      subst ha
      apply hc.1 b
      cases l with
      | nil => simp at hb
      | cons y l => simpa using hb
    | succ k =>
      simp only [List.getElem?_cons_succ] at ha hb
      exact ih k a b hc.2 ha hb

/-- A flush closes an accumulator that holds a record. -/
theorem plan_chunks_nonempty (ceiling : Nat) (m : Item → Except String Bytes) :
    ∀ (xs : List Item) (a : Acc), ∀ c ∈ (plan ceiling m xs a).1,
      1 ≤ c.1.length + c.2.length := by
  intro xs
  induction xs with
  | nil => intro a c hc; simp [plan] at hc
  | cons x xs ih =>
    intro a c hc
    simp only [plan] at hc
    cases hm : m x with
    | error e => simp [hm] at hc
    | ok r =>
      simp only [hm] at hc
      by_cases hg : a.counter + r.length ≥ ceiling ∧ a.kindCount x > 0
      · simp only [hg, and_self, if_true, List.mem_cons] at hc
        rcases hc with rfl | hc
        · have := hg.2
          cases x <;> simp only [Acc.kindCount] at this <;> simp only <;> omega
        · exact ih _ c hc
      · simp only [hg, if_false] at hc
        exact ih _ c hc

/-- The accumulator left at the end holds a record as soon as the scan started
with one or scanned one. -/
theorem plan_final_nonempty (ceiling : Nat) (m : Item → Except String Bytes) :
    ∀ (xs : List Item) (a a1 : Acc), (plan ceiling m xs a).2 = .ok a1 →
      (xs ≠ [] ∨ 1 ≤ a.Resources.length + a.Results.length) →
      1 ≤ a1.Resources.length + a1.Results.length := by
  intro xs
  induction xs with
  | nil =>
    intro a a1 h hne
    simp only [plan, Except.ok.injEq] at h
    subst h
    rcases hne with hne | hne
    · exact absurd rfl hne
    · exact hne
  | cons x xs ih =>
    intro a a1 h _
    simp only [plan] at h
    cases hm : m x with
    | error e => simp [hm] at h
    | ok r =>
      simp only [hm] at h
      by_cases hg : a.counter + r.length ≥ ceiling ∧ a.kindCount x > 0
      · simp only [hg, and_self, if_true] at h
        apply ih _ a1 h
        right
        cases x <;> simp [Acc.push]
      · simp only [hg, if_false] at h
        apply ih _ a1 h
        right
        cases x <;> simp only [Acc.push, List.length_append, List.length_singleton] <;> omega

theorem sentReports_subset (ceiling : Nat) (env : Env) (host : String) (p : PostureReport)
    (rc : Int) (l : Bool) (w : World) (q : PostureReport)
    (hq : q ∈ sentReports w (sendResources ceiling env host p rc l w)) :
    q ∈ schedule ceiling env p rc := by
  obtain ⟨-, h, -, -⟩ := sent_log ceiling env host p rc l w
  exact h.subset hq

theorem mem_stampSeq (id guid cl : String) (cs : List Chunk) (rc : Int) (q : PostureReport)
    (hq : q ∈ stampSeq id guid cl cs rc) : chunkOf q ∈ cs := by
  have := List.mem_map_of_mem chunkOf hq
  rwa [stampSeq_chunkOf] at this

/-! ## The pass boundary and the two-record scan -/

theorem closed_append (ceiling : Nat) (m : Item → Except String Bytes) (xs ys : List Item)
    (a a1 : Acc) (h : (plan ceiling m xs a).2 = .ok a1) :
    closed ceiling m (xs ++ ys) a = (plan ceiling m xs a).1 ++ closed ceiling m ys a1 := by
  simp only [closed, plan_append, h, List.append_assoc]

/-- In the pass over the Results, an accumulator that holds a Result keeps its
Resources until it is handed over. -/
theorem closed_inr_head (ceiling : Nat) (m : Item → Except String Bytes) :
    ∀ (X : List Result) (a : Acc), (∀ v ∈ X, ∃ r, m (Sum.inr v) = .ok r) → a.Results ≠ [] →
      ∃ q rest, closed ceiling m (X.map Sum.inr) a = q :: rest ∧ q.1 = a.Resources ∧
        q.2 ≠ [] := by
  intro X
  induction X with
  | nil => intro a _ ha; exact ⟨_, [], rfl, rfl, ha⟩
  | cons v X ih =>
    intro a hall ha
    obtain ⟨r, hr⟩ := hall v (by simp)
    have hall1 : ∀ u ∈ X, ∃ r, m (Sum.inr u) = .ok r := fun u hu => hall u (by simp [hu])
    rw [List.map_cons]
    by_cases hg : a.counter + r.length ≥ ceiling ∧ a.kindCount (Sum.inr v) > 0
    · rw [closed_cons_flush ceiling m _ _ a r hr hg]
      exact ⟨_, _, rfl, rfl, ha⟩
    · rw [closed_cons_keep ceiling m _ _ a r hr hg]
      obtain ⟨q, rest, h1, h2, h3⟩ := ih (a.push (Sum.inr v) r.length) hall1
        (by simp [Acc.push])
      exact ⟨q, rest, h1, h2, h3⟩

/-- The first Result joins the accumulator the pass over the Resources left,
whatever the sizes: the test of line 135 asks for a Result in the accumulator. -/
theorem closed_boundary (ceiling : Nat) (m : Item → Except String Bytes) (v : Result)
    (X : List Result) (a : Acc) (hall : ∀ u ∈ v :: X, ∃ r, m (Sum.inr u) = .ok r)
    (ha : a.Results = []) :
    ∃ q rest, closed ceiling m ((v :: X).map Sum.inr) a = q :: rest ∧ q.1 = a.Resources ∧
      q.2 ≠ [] := by
  obtain ⟨r, hr⟩ := hall v (by simp)
  have hg : ¬ (a.counter + r.length ≥ ceiling ∧ a.kindCount (Sum.inr v) > 0) := by
    simp [Acc.kindCount, ha]
  rw [List.map_cons, closed_cons_keep ceiling m _ _ a r hr hg]
  obtain ⟨q, rest, h1, h2, h3⟩ := closed_inr_head ceiling m X (a.push (Sum.inr v) r.length)
    (fun u hu => hall u (by simp [hu])) (by simp [Acc.push])
  exact ⟨q, rest, h1, h2, h3⟩

/-- When every record serializes, the records of the schedule are the records
of the report, in order. -/
theorem schedule_complete (ceiling : Nat) (env : Env) (p : PostureReport) (rc : Int)
    (hall : ∀ x ∈ items p, ∃ r, marshalItem env x = .ok r) :
    ((schedule ceiling env p rc).map (fun q => q.Resources)).flatten = p.Resources ∧
      ((schedule ceiling env p rc).map (fun q => q.Results)).flatten = p.Results := by
  obtain ⟨a1, ha1⟩ := plan_ok ceiling (marshalItem env) (items p) ⟨[], [], 0⟩ hall
  obtain ⟨h1, h2⟩ := plan_flatten ceiling (marshalItem env) (items p) ⟨[], [], 0⟩ a1 ha1
  rw [items_resources] at h1
  rw [items_results] at h2
  simp only [List.nil_append] at h1 h2
  simp only [schedule, ha1, List.map_append, List.flatten_append, stampSeq_resources,
    stampSeq_results, List.map_cons, List.map_nil, List.flatten_cons, List.flatten_nil,
    List.append_nil]
  exact ⟨h1, h2⟩

/-- The schedule of two Resources: the first is flushed alone exactly when the
two sizes together reach the ceiling. -/
theorem schedule_two (ceiling : Nat) (env : Env) (id guid cl : String) (pg : PaginationMarks)
    (rc : Int) (r1 r2 : Resource) (b1 b2 : Bytes)
    (h1 : env.marshalResource r1 = .ok b1) (h2 : env.marshalResource r2 = .ok b2) :
    (b1.length + b2.length < ceiling →
        schedule ceiling env ⟨id, guid, cl, [r1, r2], [], pg⟩ rc =
          [⟨id, guid, cl, [r1, r2], [], ⟨rc, true⟩⟩]) ∧
      (b1.length + b2.length ≥ ceiling →
        schedule ceiling env ⟨id, guid, cl, [r1, r2], [], pg⟩ rc =
          [⟨id, guid, cl, [r1], [], ⟨rc, false⟩⟩, ⟨id, guid, cl, [r2], [], ⟨rc + 1, true⟩⟩]) := by
  constructor
  · intro h
    have hg : ¬ (ceiling ≤ b1.length + b2.length) := by omega
    simp [schedule, items, plan, marshalItem, h1, h2, Acc.push, Acc.kindCount, stampSeq, hg]
  · intro h
    have hg : ceiling ≤ b1.length + b2.length := h
    simp [schedule, items, plan, marshalItem, h1, h2, Acc.push, Acc.kindCount, stampSeq, hg]

/-- The log of two sends in a row: the second is made exactly when the first
succeeds. -/
theorem sendAll_pair (env : Env) (host : String) (p1 p2 : PostureReport) (w : World) :
    ∃ c1, c1.report = p1 ∧
      ((c1.err = none ∧ ∃ c2, c2.report = p2 ∧ (sendAll env host [p1, p2] w).2 = w ++ [c1, c2]) ∨
        (c1.err ≠ none ∧ (sendAll env host [p1, p2] w).2 = w ++ [c1])) := by
  obtain ⟨req, hlog⟩ := sendReport_log env host p1 p1.PaginationInfo.ReportNumber
    p1.PaginationInfo.IsLastReport w
  have hp : ({ p1 with PaginationInfo :=
      ⟨p1.PaginationInfo.ReportNumber, p1.PaginationInfo.IsLastReport⟩ } : PostureReport) = p1 := rfl
  rw [hp] at hlog
  rcases he : (sendReport env host p1 p1.PaginationInfo.ReportNumber
    p1.PaginationInfo.IsLastReport w).1 with _ | e
  · rw [he] at hlog
    obtain ⟨c2, hc2, hr2⟩ := sendAll_single env host p2 (w ++ [⟨p1, req, none⟩])
    refine ⟨⟨p1, req, none⟩, rfl, Or.inl ⟨rfl, c2, hr2, ?_⟩⟩
    have : sendAll env host [p1, p2] w = sendAll env host [p2] (w ++ [⟨p1, req, none⟩]) := by
      rw [sendAll, hlog]
    rw [this, hc2, List.append_assoc]
    rfl
  · rw [he] at hlog
    refine ⟨⟨p1, req, some e⟩, rfl, Or.inr ⟨by simp, ?_⟩⟩
    rw [sendAll, hlog]

/-! ## Properties of the delivery -/

/-- C1 (completeness). When every record serializes and every send succeeds,
the Resources of the sub-reports passed to `sendReport`, concatenated in send
order, are the Resources of the report, and likewise for the Results. -/
theorem sendResources_complete (ceiling : Nat) (env : Env) (host : String)
    (postureReport : PostureReport) (reportCounter : Int) (isLastReport : Bool) (w : World)
    (hres : ∀ v ∈ postureReport.Resources, ∃ r, env.marshalResource v = .ok r)
    (hresults : ∀ v ∈ postureReport.Results, ∃ r, env.marshalResult v = .ok r)
    (hsend : ∀ c ∈ sent w (sendResources ceiling env host postureReport reportCounter
      isLastReport w), c.err = none) :
    ((sentReports w (sendResources ceiling env host postureReport reportCounter
        isLastReport w)).map (fun q => q.Resources)).flatten = postureReport.Resources ∧
      ((sentReports w (sendResources ceiling env host postureReport reportCounter
        isLastReport w)).map (fun q => q.Results)).flatten = postureReport.Results := by
  obtain ⟨hs, -⟩ := sent_of_all_ok ceiling env host postureReport reportCounter isLastReport w hsend
  obtain ⟨a1, ha1⟩ := plan_ok ceiling (marshalItem env) (items postureReport) ⟨[], [], 0⟩
    (marshalItem_ok env postureReport hres hresults)
  obtain ⟨h1, h2⟩ := plan_flatten ceiling (marshalItem env) (items postureReport) ⟨[], [], 0⟩ a1 ha1
  rw [items_resources] at h1
  rw [items_results] at h2
  simp only [List.nil_append] at h1 h2
  rw [hs]
  simp only [schedule, ha1, List.map_append, List.flatten_append, stampSeq_resources,
    stampSeq_results, List.map_cons, List.map_nil, List.flatten_cons, List.flatten_nil,
    List.append_nil]
  exact ⟨h1, h2⟩

/-- C1, at a concrete input: four Resources and three Results under a ceiling
of 10 bytes, sent as five sub-reports. -/
theorem sendResources_complete_witness :
    let r (id : String) (n : Nat) : Resource := ⟨id, List.replicate n 0⟩
    let x (id : String) (n : Nat) : Result := ⟨id, List.replicate n 0⟩
    let report : PostureReport :=
      ⟨"id", "guid", "cluster", [r "a" 4, r "b" 4, r "c" 4, r "d" 12],
        [x "a" 1, x "b" 9, x "c" 1], ⟨0, false⟩⟩
    (sentReports [] (sendResources 10 sampleEnv "host" report 0 false [])).length = 5 ∧
      ((sentReports [] (sendResources 10 sampleEnv "host" report 0 false [])).map
        (fun q => q.Resources)).flatten = report.Resources ∧
      ((sentReports [] (sendResources 10 sampleEnv "host" report 0 false [])).map
        (fun q => q.Results)).flatten = report.Results := by
  intro r x report
  refine ⟨by decide, ?_⟩
  exact sendResources_complete 10 sampleEnv "host" report 0 false []
    (fun v _ => ⟨_, rfl⟩) (fun v _ => ⟨_, rfl⟩) (by decide)

/-- C5 (empty input). With no Resources and no Results, `sendResources` passes
exactly one sub-report to `sendReport`: it has no record and is marked as the
last one; `prepareReport` starts the counter at 0, so its number is 0. -/
theorem prepareReport_empty (ceiling : Nat) (env : Env) (report : ReportEventReceiver)
    (host id guid cl : String) (pg : PaginationMarks) (isLastReport : Bool) (w : World) :
    sentReports w (sendResources ceiling env host ⟨id, guid, cl, [], [], pg⟩ 0 isLastReport w) =
        [⟨id, guid, cl, [], [], ⟨0, true⟩⟩] ∧
      (preparedCalls w (prepareReport ceiling env report ⟨id, guid, cl, [], [], pg⟩ w)).map
        Call.report = [⟨id, guid, cl, [], [], ⟨0, true⟩⟩] := by
  have h : ∀ (h1 : String) (l : Bool),
      sentReports w (sendResources ceiling env h1 ⟨id, guid, cl, [], [], pg⟩ 0 l w) =
        [⟨id, guid, cl, [], [], ⟨0, true⟩⟩] := by
    intro h1 l
    apply sentReports_single
    simp [schedule, items, plan, stampSeq]
  exact ⟨h host isLastReport, by rw [preparedCalls_eq]; exact h _ _⟩

/-- C9 (shared accumulator). When the records all serialize and their total
serialized size is strictly below the ceiling, exactly one sub-report is sent;
it holds all the Resources and all the Results, has number 0 and is marked as
the last one. -/
theorem prepareReport_single_when_small (ceiling : Nat) (env : Env)
    (report : ReportEventReceiver) (host : String) (postureReport : PostureReport)
    (isLastReport : Bool) (w : World)
    (hres : ∀ v ∈ postureReport.Resources, ∃ r, env.marshalResource v = .ok r)
    (hresults : ∀ v ∈ postureReport.Results, ∃ r, env.marshalResult v = .ok r)
    (hsmall : reportSize env postureReport < ceiling) :
    sentReports w (sendResources ceiling env host postureReport 0 isLastReport w) =
        [⟨postureReport.ReportID, postureReport.CustomerGUID, postureReport.ClusterName,
          postureReport.Resources, postureReport.Results, ⟨0, true⟩⟩] ∧
      (preparedCalls w (prepareReport ceiling env report postureReport w)).map Call.report =
        [⟨postureReport.ReportID, postureReport.CustomerGUID, postureReport.ClusterName,
          postureReport.Resources, postureReport.Results, ⟨0, true⟩⟩] := by
  have h := schedule_small ceiling env postureReport 0 hres hresults hsmall
  refine ⟨sentReports_single _ _ _ _ _ _ _ _ h, ?_⟩
  rw [preparedCalls_eq]
  exact sentReports_single _ _ _ _ _ _ _ _ h

/-- C9, at a concrete input: two Resources and two Results of 9 bytes in all
under a ceiling of 10 bytes. -/
theorem prepareReport_single_when_small_witness :
    let report : PostureReport :=
      ⟨"id", "guid", "cluster", [⟨"a", [1, 2, 3]⟩, ⟨"b", [4, 5]⟩], [⟨"a", [6, 7]⟩, ⟨"b", [8, 9]⟩],
        ⟨0, false⟩⟩
    let receiver : ReportEventReceiver := ⟨"cluster", "guid", none, "", "", ""⟩
    reportSize sampleEnv report = 9 ∧
      sentReports [] (sendResources 10 sampleEnv "host" report 0 false []) =
        [⟨"id", "guid", "cluster", report.Resources, report.Results, ⟨0, true⟩⟩] ∧
      (preparedCalls [] (prepareReport 10 sampleEnv receiver report [])).map Call.report =
        [⟨"id", "guid", "cluster", report.Resources, report.Results, ⟨0, true⟩⟩] := by
  intro report receiver
  exact ⟨by decide, prepareReport_single_when_small 10 sampleEnv receiver "host" report false []
    (fun v _ => ⟨_, rfl⟩) (fun v _ => ⟨_, rfl⟩) (by decide)⟩

/-- C4, as stated, fails: a report whose only Resource cannot be serialized is
given to `prepareReport` with a transport that never fails.  No send fails,
and no sub-report marked as the last one is sent. -/
theorem pagination_last_needs_serialization :
    let report : PostureReport :=
      ⟨"id", "guid", "cluster", [⟨"bad", [1]⟩], [], ⟨0, false⟩⟩
    let receiver : ReportEventReceiver := ⟨"cluster", "guid", none, "", "", ""⟩
    (∀ c ∈ preparedCalls [] (prepareReport MAX_REPORT_SIZE (failingMarshal "bad") receiver
        report []), c.err = none) ∧
      ¬ ∃ c ∈ preparedCalls [] (prepareReport MAX_REPORT_SIZE (failingMarshal "bad") receiver
        report []), c.report.PaginationInfo.IsLastReport = true := by
  decide

/-- C4, amended (pagination). When every record serializes and every send
succeeds, the sub-reports sent by `prepareReport`, which starts the counter at
0, carry the numbers 0, 1, 2, ... in send order, and exactly one of them is
marked as the last one: the last one sent. -/
theorem prepareReport_pagination (ceiling : Nat) (env : Env) (report : ReportEventReceiver)
    (postureReport : PostureReport) (w : World)
    (hres : ∀ v ∈ postureReport.Resources, ∃ r, env.marshalResource v = .ok r)
    (hresults : ∀ v ∈ postureReport.Results, ∃ r, env.marshalResult v = .ok r)
    (hsend : ∀ c ∈ preparedCalls w (prepareReport ceiling env report postureReport w),
      c.err = none) :
    (∀ (i : Nat) (q : PostureReport),
        ((preparedCalls w (prepareReport ceiling env report postureReport w)).map
          Call.report)[i]? = some q → q.PaginationInfo.ReportNumber = i) ∧
      ∃ init last,
        (preparedCalls w (prepareReport ceiling env report postureReport w)).map Call.report =
          init ++ [last] ∧
        last.PaginationInfo.IsLastReport = true ∧
        ∀ q ∈ init, q.PaginationInfo.IsLastReport = false := by
  rw [preparedCalls_eq] at hsend ⊢
  constructor
  · intro i q h
    have := sentReports_number ceiling env _ postureReport 0 false w i q h
    simpa using this
  · obtain ⟨hs, -⟩ := sent_of_all_ok ceiling env _ postureReport 0 false w hsend
    obtain ⟨a1, ha1⟩ := plan_ok ceiling (marshalItem env) (items postureReport) ⟨[], [], 0⟩
      (marshalItem_ok env postureReport hres hresults)
    simp only [sentReports] at hs
    rw [hs]
    simp only [schedule, ha1]
    exact ⟨_, _, rfl, rfl, stampSeq_not_last _ _ _ _ _⟩

/-- C4 amended, at a concrete input: four Resources and three Results under a
ceiling of 10 bytes, sent as five sub-reports. -/
theorem prepareReport_pagination_witness :
    let r (id : String) (n : Nat) : Resource := ⟨id, List.replicate n 0⟩
    let x (id : String) (n : Nat) : Result := ⟨id, List.replicate n 0⟩
    let report : PostureReport :=
      ⟨"id", "guid", "cluster", [r "a" 4, r "b" 4, r "c" 4, r "d" 12],
        [x "a" 1, x "b" 9, x "c" 1], ⟨0, false⟩⟩
    let receiver : ReportEventReceiver := ⟨"cluster", "guid", none, "", "", ""⟩
    (preparedCalls [] (prepareReport 10 sampleEnv receiver report [])).length = 5 ∧
      (∀ (i : Nat) (q : PostureReport),
        ((preparedCalls [] (prepareReport 10 sampleEnv receiver report [])).map
          Call.report)[i]? = some q → q.PaginationInfo.ReportNumber = i) ∧
      ∃ init last,
        (preparedCalls [] (prepareReport 10 sampleEnv receiver report [])).map Call.report =
          init ++ [last] ∧
        last.PaginationInfo.IsLastReport = true ∧
        ∀ q ∈ init, q.PaginationInfo.IsLastReport = false := by
  intro r x report receiver
  exact ⟨by decide, prepareReport_pagination 10 sampleEnv receiver report []
    (fun v _ => ⟨_, rfl⟩) (fun v _ => ⟨_, rfl⟩) (by decide)⟩

/-- C8 (pass ordering). Among the sub-reports sent, no sub-report holding a
Result comes before a sub-report holding a Resource; hence at most one
sub-report holds both Resources and Results. -/
theorem sendResources_pass_order (ceiling : Nat) (env : Env) (host : String)
    (postureReport : PostureReport) (reportCounter : Int) (isLastReport : Bool) (w : World) :
    (∀ (i j : Nat) (qi qj : PostureReport), i < j →
        (sentReports w (sendResources ceiling env host postureReport reportCounter
          isLastReport w))[i]? = some qi →
        (sentReports w (sendResources ceiling env host postureReport reportCounter
          isLastReport w))[j]? = some qj →
        ¬ (qi.Results ≠ [] ∧ qj.Resources ≠ [])) ∧
      (∀ (i j : Nat) (qi qj : PostureReport),
        (sentReports w (sendResources ceiling env host postureReport reportCounter
          isLastReport w))[i]? = some qi →
        (sentReports w (sendResources ceiling env host postureReport reportCounter
          isLastReport w))[j]? = some qj →
        qi.Resources ≠ [] ∧ qi.Results ≠ [] → qj.Resources ≠ [] ∧ qj.Results ≠ [] → i = j) := by
  have hp := sentReports_pass_order ceiling env host postureReport reportCounter isLastReport w
  refine ⟨fun i j qi qj hij hi hj => passOrder_at _ hp i j qi qj hij hi hj, ?_⟩
  intro i j qi qj hi hj hqi hqj
  rcases Nat.lt_trichotomy i j with hij | hij | hij
  · exact absurd ⟨hqi.2, hqj.1⟩ (passOrder_at _ hp i j qi qj hij hi hj)
  · exact hij
  · exact absurd ⟨hqj.2, hqi.1⟩ (passOrder_at _ hp j i qj qi hij hj hi)

/-- C8, at a concrete input: of the five sub-reports sent, the third holds a
Resource and a Result, the second holds Resources only and the fourth Results
only. -/
theorem sendResources_pass_order_witness :
    let r (id : String) (n : Nat) : Resource := ⟨id, List.replicate n 0⟩
    let x (id : String) (n : Nat) : Result := ⟨id, List.replicate n 0⟩
    let report : PostureReport :=
      ⟨"id", "guid", "cluster", [r "a" 4, r "b" 4, r "c" 4, r "d" 12],
        [x "a" 1, x "b" 9, x "c" 1], ⟨0, false⟩⟩
    (sentReports [] (sendResources 10 sampleEnv "host" report 0 false [])).map chunkOf =
        [([r "a" 4, r "b" 4], []), ([r "c" 4], []), ([r "d" 12], [x "a" 1]), ([], [x "b" 9]),
          ([], [x "c" 1])] ∧
      ∀ (qi qj : PostureReport),
        (sentReports [] (sendResources 10 sampleEnv "host" report 0 false []))[2]? = some qi →
        (sentReports [] (sendResources 10 sampleEnv "host" report 0 false []))[3]? = some qj →
        ¬ (qi.Results ≠ [] ∧ qj.Resources ≠ []) := by
  intro r x report
  exact ⟨by decide, fun qi qj =>
    (sendResources_pass_order 10 sampleEnv "host" report 0 false []).1 2 3 qi qj (by decide)⟩

/-- C6, as stated, fails: the error returned does not identify sub-report `k`,
nor that a transport failed.  The same report (five sub-reports under ceiling
10) is sent with a transport that fails on the first request and with one that
fails on the second: the failing send is that of sub-report 0 in one run and
of sub-report 1 in the other, and `sendResources` returns the same text in
both.  With a sub-report that cannot be serialized, the send of sub-report 0
fails without any request being issued, and the error returned is the
`json.Marshal` text. -/
theorem fail_fast_error_does_not_identify_send :
    let r (id : String) (n : Nat) : Resource := ⟨id, List.replicate n 0⟩
    let x (id : String) (n : Nat) : Result := ⟨id, List.replicate n 0⟩
    let report : PostureReport :=
      ⟨"id", "guid", "cluster", [r "a" 4, r "b" 4, r "c" 4, r "d" 12],
        [x "a" 1, x "b" 9, x "c" 1], ⟨0, false⟩⟩
    (sentReports [] (sendResources 10 sampleEnv "host" report 0 false [])).length = 5 ∧
      (sent [] (sendResources 10 (failingTransport 0) "host" report 0 false [])).map Call.err =
        [some "host, connection refused:"] ∧
      (sent [] (sendResources 10 (failingTransport 1) "host" report 0 false [])).map Call.err =
        [none, some "host, connection refused:"] ∧
      (sendResources 10 (failingTransport 0) "host" report 0 false []).err =
        some "host, connection refused:" ∧
      (sendResources 10 (failingTransport 1) "host" report 0 false []).err =
        some "host, connection refused:" ∧
      (sent [] (sendResources 10 failingReportMarshal "host" report 0 false [])).map Call.err =
        [some "in 'sendReport' failed to json.Marshal, reason: json: unsupported value"] ∧
      (sent [] (sendResources 10 failingReportMarshal "host" report 0 false [])).map
        Call.request = [none] ∧
      (sendResources 10 failingReportMarshal "host" report 0 false []).err =
        some "in 'sendReport' failed to json.Marshal, reason: json: unsupported value" := by
  decide

/-- C6, amended (fail-fast). If a send fails, every earlier send has succeeded,
it is the last send attempted, and `sendResources` returns its error.  If it
is the send of sub-report `k`, the sub-reports passed to `sendReport` are the
first `k + 1` sub-reports of the run in which no send fails.  The error is the
one `sendReport` made for that sub-report: when the request was issued, the
text is the host, the transport's error and the response text; when the
sub-report could not be serialized, no request was issued and the text is the
`json.Marshal` one. -/
theorem sendResources_fail_fast (ceiling : Nat) (env env1 : Env) (host : String)
    (postureReport : PostureReport) (reportCounter : Int) (isLastReport : Bool) (w : World)
    (k : Nat) (c : Call) (e : String)
    (hk : (sent w (sendResources ceiling env host postureReport reportCounter
      isLastReport w))[k]? = some c)
    (hfail : c.err = some e)
    (hres : env1.marshalResource = env.marshalResource)
    (hresults : env1.marshalResult = env.marshalResult)
    (hideal : ∀ c1 ∈ sent w (sendResources ceiling env1 host postureReport reportCounter
      isLastReport w), c1.err = none) :
    (sendResources ceiling env host postureReport reportCounter isLastReport w).err = some e ∧
      (sent w (sendResources ceiling env host postureReport reportCounter
        isLastReport w)).length = k + 1 ∧
      (∀ c1 ∈ (sent w (sendResources ceiling env host postureReport reportCounter
        isLastReport w)).take k, c1.err = none) ∧
      sentReports w (sendResources ceiling env host postureReport reportCounter isLastReport w) =
        (sentReports w (sendResources ceiling env1 host postureReport reportCounter
          isLastReport w)).take (k + 1) ∧
      c.report.PaginationInfo.ReportNumber = reportCounter + k ∧
      ((∃ merr, env.marshalReport c.report = .error merr ∧ c.request = none ∧
          e = "in 'sendReport' failed to json.Marshal, reason: " ++ merr) ∨
        (∃ body msg terr, env.marshalReport c.report = .ok body ∧
          c.request = some (host, body) ∧
          env.httpPost (requests (w ++ (sent w (sendResources ceiling env host postureReport
            reportCounter isLastReport w)).take k)) host body = (msg, some terr) ∧
          e = host ++ ", " ++ terr ++ ":" ++ msg)) := by
  have hmem : c ∈ sent w (sendResources ceiling env host postureReport reportCounter
      isLastReport w) := by
    obtain ⟨hlt, hget⟩ := List.getElem?_eq_some.mp hk
    exact hget ▸ List.getElem_mem hlt
  obtain ⟨cs0, hcs, hall, herr⟩ :=
    sent_of_failure ceiling env host postureReport reportCounter isLastReport w c e hmem hfail
  obtain ⟨-, hpre, hlogged, -⟩ :=
    sent_log ceiling env host postureReport reportCounter isLastReport w
  obtain ⟨hideal1, -⟩ :=
    sent_of_all_ok ceiling env1 host postureReport reportCounter isLastReport w hideal
  rw [schedule_congr ceiling env env1 postureReport reportCounter hres hresults] at hideal1
  have hk0 : k = cs0.length := by
    rw [hcs] at hk
    by_contra hne
    obtain ⟨hlt, hget⟩ := List.getElem?_eq_some.mp hk
    simp only [List.length_append, List.length_singleton] at hlt
    have hlt1 : k < cs0.length := by omega
    rw [List.getElem_append_left hlt1] at hget
    have := hall c (hget ▸ List.getElem_mem hlt1)
    rw [hfail] at this
    cases this
  have htake : (sent w (sendResources ceiling env host postureReport reportCounter
      isLastReport w)).take k = cs0 := by
    rw [hcs, hk0, List.take_left']
    rfl
  have hnum := sentReports_number ceiling env host postureReport reportCounter isLastReport w
    k c.report (by simp [sentReports, hk])
  refine ⟨herr, by rw [hcs, hk0]; simp, by rw [htake]; exact hall, ?_, hnum, ?_⟩
  · rw [hideal1]
    have hlen : (sentReports w (sendResources ceiling env host postureReport reportCounter
        isLastReport w)).length = k + 1 := by
      simp [sentReports, hcs, hk0]
    rw [← hlen]
    exact List.prefix_iff_eq_take.mp hpre
  · have hl := hlogged cs0 c [] hcs
    rw [htake]
    rcases Logged_cases env host (w ++ cs0) c hl with ⟨merr, h1, h2, h3⟩ | ⟨body, msg, h1, h2, h3⟩
    · left
      rw [hfail] at h3
      exact ⟨merr, h1, h2, Option.some.inj h3⟩
    · right
      rcases h3 with ⟨-, h3⟩ | ⟨terr, h3, h4⟩
      · rw [hfail] at h3
        cases h3
      · rw [hfail] at h4
        exact ⟨body, msg, terr, h1, h2, h3, Option.some.inj h4⟩

/-- C6 amended, at a concrete input: the transport fails on the second request.  The
first two of the five sub-reports are passed to `sendReport`, and the error of
the second send is returned. -/
theorem sendResources_fail_fast_witness :
    let r (id : String) (n : Nat) : Resource := ⟨id, List.replicate n 0⟩
    let x (id : String) (n : Nat) : Result := ⟨id, List.replicate n 0⟩
    let report : PostureReport :=
      ⟨"id", "guid", "cluster", [r "a" 4, r "b" 4, r "c" 4, r "d" 12],
        [x "a" 1, x "b" 9, x "c" 1], ⟨0, false⟩⟩
    (sentReports [] (sendResources 10 sampleEnv "host" report 0 false [])).length = 5 ∧
      (sendResources 10 (failingTransport 1) "host" report 0 false []).err =
        some "host, connection refused:" ∧
      (sent [] (sendResources 10 (failingTransport 1) "host" report 0 false [])).length = 2 ∧
      sentReports [] (sendResources 10 (failingTransport 1) "host" report 0 false []) =
        (sentReports [] (sendResources 10 sampleEnv "host" report 0 false [])).take 2 := by
  intro r x report
  have h := sendResources_fail_fast 10 (failingTransport 1) sampleEnv "host" report 0 false [] 1
    ⟨⟨"id", "guid", "cluster", [r "c" 4], [], ⟨1, false⟩⟩, some ("host", []),
      some "host, connection refused:"⟩
    "host, connection refused:" (by decide) rfl rfl rfl (by decide)
  exact ⟨by decide, h.1, h.2.1, h.2.2.2.1⟩

/-- C7 (encoding failure). Suppose every send made succeeded.  If a Resource
cannot be serialized and the Resources before it can, or the Resources can
and a Result cannot while the Results before it can, then `sendResources`
returns an error whose text holds the identifier of that record, no sub-report
marked as the last one is sent, and the calls made are those of the run on the
records before the failing one, without its last call (the final send): the
flushes triggered by the records before the failing one. -/
theorem sendResources_encoding_failure (ceiling : Nat) (env : Env) (host : String)
    (postureReport : PostureReport) (reportCounter : Int) (isLastReport : Bool) (w : World)
    (hsend : ∀ c ∈ sent w (sendResources ceiling env host postureReport reportCounter
      isLastReport w), c.err = none) :
    (∀ (pre post : List Resource) (bad : Resource) (e : String),
        postureReport.Resources = pre ++ bad :: post →
        (∀ v ∈ pre, ∃ r, env.marshalResource v = .ok r) →
        env.marshalResource bad = .error e →
        (sendResources ceiling env host postureReport reportCounter isLastReport w).err =
            some ("failed to unmarshal resource '" ++ bad.ResourceID ++ "', reason: " ++ e) ∧
          (∀ c ∈ sent w (sendResources ceiling env host postureReport reportCounter
            isLastReport w), c.report.PaginationInfo.IsLastReport = false) ∧
          sent w (sendResources ceiling env host postureReport reportCounter isLastReport w) =
            (sent w (sendResources ceiling env host
              { postureReport with Resources := pre, Results := [] } reportCounter
              isLastReport w)).dropLast) ∧
      (∀ (pre post : List Result) (bad : Result) (e : String),
        (∀ v ∈ postureReport.Resources, ∃ r, env.marshalResource v = .ok r) →
        postureReport.Results = pre ++ bad :: post →
        (∀ v ∈ pre, ∃ r, env.marshalResult v = .ok r) →
        env.marshalResult bad = .error e →
        (sendResources ceiling env host postureReport reportCounter isLastReport w).err =
            some ("failed to unmarshal resource '" ++ bad.GetResourceID ++ "', reason: " ++ e) ∧
          (∀ c ∈ sent w (sendResources ceiling env host postureReport reportCounter
            isLastReport w), c.report.PaginationInfo.IsLastReport = false) ∧
          sent w (sendResources ceiling env host postureReport reportCounter isLastReport w) =
            (sent w (sendResources ceiling env host
              { postureReport with Results := pre } reportCounter
              isLastReport w)).dropLast) := by
  constructor
  · intro pre post bad e hsplit hpre hbad
    refine encoding_failure ceiling env host postureReport
      { postureReport with Resources := pre, Results := [] } reportCounter isLastReport w
      (pre.map Sum.inl) (post.map Sum.inl ++ postureReport.Results.map Sum.inr) (Sum.inl bad) e
      (by simp [items, hsplit]) (by simp [items]) rfl rfl rfl ?_ hbad hsend
    intro x hx
    obtain ⟨v, hv, rfl⟩ := List.mem_map.mp hx
    exact hpre v hv
  · intro pre post bad e hres hsplit hpre hbad
    refine encoding_failure ceiling env host postureReport
      { postureReport with Results := pre } reportCounter isLastReport w
      (postureReport.Resources.map Sum.inl ++ pre.map Sum.inr) (post.map Sum.inr) (Sum.inr bad) e
      (by simp [items, hsplit]) (by simp [items]) rfl rfl rfl ?_ hbad hsend
    intro x hx
    rcases List.mem_append.mp hx with hx | hx
    · obtain ⟨v, hv, rfl⟩ := List.mem_map.mp hx
      exact hres v hv
    · obtain ⟨v, hv, rfl⟩ := List.mem_map.mp hx
      exact hpre v hv

/-- C7, at a concrete input: the fourth Resource cannot be serialized.  The
error names it, and the one sub-report sent is the flush triggered by the
third Resource. -/
theorem sendResources_encoding_failure_witness :
    let r (id : String) (n : Nat) : Resource := ⟨id, List.replicate n 0⟩
    let x (id : String) (n : Nat) : Result := ⟨id, List.replicate n 0⟩
    let report : PostureReport :=
      ⟨"id", "guid", "cluster", [r "a" 4, r "b" 4, r "c" 4, r "bad" 12, r "e" 1],
        [x "a" 1, x "b" 9, x "c" 1], ⟨0, false⟩⟩
    sentReports [] (sendResources 10 (failingMarshal "bad") "host" report 0 false []) =
        [⟨"id", "guid", "cluster", [r "a" 4, r "b" 4], [], ⟨0, false⟩⟩] ∧
      (sendResources 10 (failingMarshal "bad") "host" report 0 false []).err =
        some "failed to unmarshal resource 'bad', reason: json: unsupported value" ∧
      (∀ c ∈ sent [] (sendResources 10 (failingMarshal "bad") "host" report 0 false []),
        c.report.PaginationInfo.IsLastReport = false) ∧
      sent [] (sendResources 10 (failingMarshal "bad") "host" report 0 false []) =
        (sent [] (sendResources 10 (failingMarshal "bad") "host"
          { report with Resources := [r "a" 4, r "b" 4, r "c" 4], Results := [] }
          0 false [])).dropLast := by
  intro r x report
  exact ⟨by decide,
    (sendResources_encoding_failure 10 (failingMarshal "bad") "host" report 0 false []
      (by decide)).1 [r "a" 4, r "b" 4, r "c" 4] [r "e" 1] (r "bad" 12) "json: unsupported value"
      rfl
      (by
        intro v hv
        simp only [List.mem_cons, List.mem_singleton, List.not_mem_nil, or_false] at hv
        rcases hv with rfl | rfl | rfl <;> exact ⟨List.replicate 4 0, rfl⟩)
      rfl⟩

/-- C10, as stated, fails: for five Resources of 500,000 bytes each, no Result
and a ceiling of 1,000,000 bytes, the sub-reports sent do not hold 2, 2 and 1
records. -/
theorem scenario_is_not_2_2_1 :
    (sentReports [] (sendResources 1000000 sampleEnv "host"
        ⟨"id", "guid", "cluster",
          [⟨"r1", payload 500000⟩, ⟨"r2", payload 500000⟩,
            ⟨"r3", payload 500000⟩, ⟨"r4", payload 500000⟩,
            ⟨"r5", payload 500000⟩], [], ⟨0, false⟩⟩ 0 false [])).map recordCount ≠
      [2, 2, 1] := by
  rw [scenario_reports]
  simp [recordCount]

/-- C10, amended (scenario). For five Resources of 500,000 bytes each, no
Result and a ceiling of 1,000,000 bytes, five sub-reports are sent, numbered 0
to 4; each holds one Resource, in the order of the input, and the last one is
the final sub-report.  (The second Resource brings the byte count to the
ceiling exactly, and the test is `>=`.) -/
theorem scenario_five_singletons :
    sentReports [] (sendResources 1000000 sampleEnv "host"
        ⟨"id", "guid", "cluster",
          [⟨"r1", payload 500000⟩, ⟨"r2", payload 500000⟩,
            ⟨"r3", payload 500000⟩, ⟨"r4", payload 500000⟩,
            ⟨"r5", payload 500000⟩], [], ⟨0, false⟩⟩ 0 false []) =
      [⟨"id", "guid", "cluster", [⟨"r1", payload 500000⟩], [], ⟨0, false⟩⟩,
        ⟨"id", "guid", "cluster", [⟨"r2", payload 500000⟩], [], ⟨1, false⟩⟩,
        ⟨"id", "guid", "cluster", [⟨"r3", payload 500000⟩], [], ⟨2, false⟩⟩,
        ⟨"id", "guid", "cluster", [⟨"r4", payload 500000⟩], [], ⟨3, false⟩⟩,
        ⟨"id", "guid", "cluster", [⟨"r5", payload 500000⟩], [], ⟨4, true⟩⟩] :=
  scenario_reports "r1" "r2" "r3" "r4" "r5"

/-- C2, at the failing input: one Resource and one Result of 1,048,576 bytes
each, under the ceiling of the source.  One sub-report is sent; it holds two
records and its serialized size is 2,097,152 bytes, not under the ceiling. -/
theorem size_bound_fails_at_pass_boundary :
    sentReports [] (sendResources MAX_REPORT_SIZE sampleEnv "host"
        ⟨"id", "guid", "cluster", [⟨"r1", payload 1048576⟩],
          [⟨"r1", payload 1048576⟩], ⟨0, false⟩⟩ 0 false []) =
        [⟨"id", "guid", "cluster", [⟨"r1", payload 1048576⟩],
          [⟨"r1", payload 1048576⟩], ⟨0, true⟩⟩] ∧
      reportSize sampleEnv ⟨"id", "guid", "cluster", [⟨"r1", payload 1048576⟩],
        [⟨"r1", payload 1048576⟩], ⟨0, true⟩⟩ = 2097152 ∧
      recordCount ⟨"id", "guid", "cluster", [⟨"r1", payload 1048576⟩],
        [⟨"r1", payload 1048576⟩], ⟨0, true⟩⟩ = 2 ∧
      ¬ (2097152 < MAX_REPORT_SIZE) := by
  obtain ⟨h1, h2, -, -, h3⟩ := schedule_one_each MAX_REPORT_SIZE sampleEnv "id" "guid" "cluster"
    ⟨0, false⟩ 0 ⟨"r1", payload 1048576⟩ ⟨"r1", payload 1048576⟩ (payload 1048576)
    (payload 1048576) rfl rfl
  rw [sentReports_sampleEnv]
  refine ⟨h1, ?_, h3, by decide⟩
  rw [h2, payload_length]

/-- C3, at the failing input: one Resource of 2,097,152 bytes, the ceiling of
the source, and one Result of 1 byte.  The oversize Resource is sent in a
sub-report that also holds the Result. -/
theorem oversize_not_alone_at_pass_boundary :
    sentReports [] (sendResources MAX_REPORT_SIZE sampleEnv "host"
        ⟨"id", "guid", "cluster", [⟨"r1", payload 2097152⟩], [⟨"r1", [0]⟩],
          ⟨0, false⟩⟩ 0 false []) =
        [⟨"id", "guid", "cluster", [⟨"r1", payload 2097152⟩], [⟨"r1", [0]⟩],
          ⟨0, true⟩⟩] ∧
      recordSize (marshalItem sampleEnv) (Sum.inl ⟨"r1", payload 2097152⟩) ≥
        MAX_REPORT_SIZE := by
  obtain ⟨h1, -, h2, -, -⟩ := schedule_one_each MAX_REPORT_SIZE sampleEnv "id" "guid" "cluster"
    ⟨0, false⟩ 0 ⟨"r1", payload 2097152⟩ ⟨"r1", [0]⟩ (payload 2097152) [0] rfl rfl
  rw [sentReports_sampleEnv]
  refine ⟨h1, ?_⟩
  rw [h2, payload_length]
  decide

/-- C12 (the uploader). `sendReport` stamps the counter and the last-report
flag on the sub-report and logs one call.  When the stamped sub-report cannot
be serialized it issues no request and returns the serialization error; when
it can, it issues exactly one request, carrying the serialized bytes, and
returns `nil` if the transport does, and otherwise an error whose text holds
the host, the transport's error and the response text.  So it returns an
error if and only if the serialization or the request fails. -/
theorem sendReport_once (env : Env) (host : String) (postureReport : PostureReport)
    (counter : Int) (isLastReport : Bool) (w : World) :
    (sendReport env host postureReport counter isLastReport w).2.1 =
        { postureReport with PaginationInfo := ⟨counter, isLastReport⟩ } ∧
      (∃ c, (sendReport env host postureReport counter isLastReport w).2.2 = w ++ [c] ∧
        c.report = { postureReport with PaginationInfo := ⟨counter, isLastReport⟩ } ∧
        c.err = (sendReport env host postureReport counter isLastReport w).1) ∧
      (∀ merr,
        env.marshalReport { postureReport with PaginationInfo := ⟨counter, isLastReport⟩ } =
          .error merr →
        requests (sendReport env host postureReport counter isLastReport w).2.2 = requests w ∧
        (sendReport env host postureReport counter isLastReport w).1 =
          some ("in 'sendReport' failed to json.Marshal, reason: " ++ merr)) ∧
      (∀ body,
        env.marshalReport { postureReport with PaginationInfo := ⟨counter, isLastReport⟩ } =
          .ok body →
        requests (sendReport env host postureReport counter isLastReport w).2.2 =
          requests w ++ [(host, body)] ∧
        ((sendReport env host postureReport counter isLastReport w).1 = none ↔
          (env.httpPost (requests w) host body).2 = none) ∧
        ∀ terr, (env.httpPost (requests w) host body).2 = some terr →
          (sendReport env host postureReport counter isLastReport w).1 =
            some (host ++ ", " ++ terr ++ ":" ++ (env.httpPost (requests w) host body).1)) ∧
      ((sendReport env host postureReport counter isLastReport w).1 = none ↔
        ∃ body,
          env.marshalReport { postureReport with PaginationInfo := ⟨counter, isLastReport⟩ } =
            .ok body ∧
          (env.httpPost (requests w) host body).2 = none) := by
  cases hm : env.marshalReport { postureReport with PaginationInfo := ⟨counter, isLastReport⟩ } with
  | error merr =>
    have hs : sendReport env host postureReport counter isLastReport w =
        (some ("in 'sendReport' failed to json.Marshal, reason: " ++ merr),
          { postureReport with PaginationInfo := ⟨counter, isLastReport⟩ },
          w ++ [⟨{ postureReport with PaginationInfo := ⟨counter, isLastReport⟩ }, none,
            some ("in 'sendReport' failed to json.Marshal, reason: " ++ merr)⟩]) := by
      simp only [sendReport, hm]
    rw [hs]
    refine ⟨rfl, ⟨_, rfl, rfl, rfl⟩, ?_, ?_, ?_⟩
    · intro merr1 h1
      cases h1
      exact ⟨by simp [requests_append], rfl⟩
    · intro body h1
      cases h1
    · simp
  | ok body =>
    rcases hp : env.httpPost (requests w) host body with ⟨msg, _ | terr⟩
    · have hs : sendReport env host postureReport counter isLastReport w =
          (none, { postureReport with PaginationInfo := ⟨counter, isLastReport⟩ },
            w ++ [⟨{ postureReport with PaginationInfo := ⟨counter, isLastReport⟩ },
              some (host, body), none⟩]) := by
        simp only [sendReport, hm, hp]
      rw [hs]
      refine ⟨rfl, ⟨_, rfl, rfl, rfl⟩, ?_, ?_, ?_⟩
      · intro merr1 h1
        cases h1
      · intro body1 h1
        cases h1
        exact ⟨by simp [requests_append], by simp [hp], by simp [hp]⟩
      · simp [hp]
    · have hs : sendReport env host postureReport counter isLastReport w =
          (some (host ++ ", " ++ terr ++ ":" ++ msg),
            { postureReport with PaginationInfo := ⟨counter, isLastReport⟩ },
            w ++ [⟨{ postureReport with PaginationInfo := ⟨counter, isLastReport⟩ },
              some (host, body), some (host ++ ", " ++ terr ++ ":" ++ msg)⟩]) := by
        simp only [sendReport, hm, hp]
      rw [hs]
      refine ⟨rfl, ⟨_, rfl, rfl, rfl⟩, ?_, ?_, ?_⟩
      · intro merr1 h1
        cases h1
      · intro body1 h1
        cases h1
        exact ⟨by simp [requests_append], by simp [hp], by simp [hp]⟩
      · simp [hp]

/-- C13 (failure presentation). With a non-empty account ID and cluster name:
when `prepareReport` returns an error, `ActionSendReport` sets the receiver's
message to the text of that error and `generateMessage` is not applied; the
receiver is the one `generateMessage` makes only when `prepareReport` returns
`nil`, and then every send made succeeded and the sub-report marked as the
last one was sent. -/
theorem ActionSendReport_failure_message (ceiling : Nat) (env : Env) (sv : Services)
    (report : ReportEventReceiver) (opaSessionObj : OPASessionObj) (w : World)
    (hguid : report.customerGUID ≠ "") (hcl : report.clusterName ≠ "") :
    (∀ e, (prepareReport ceiling env report (identified sv report opaSessionObj) w).1 = some e →
        (ActionSendReport ceiling env sv report opaSessionObj w).report =
          { (prepareReport ceiling env report (identified sv report opaSessionObj) w).2.1 with
            message := e }) ∧
      ((prepareReport ceiling env report (identified sv report opaSessionObj) w).1 = none →
        (ActionSendReport ceiling env sv report opaSessionObj w).report =
            generateMessage sv
              (prepareReport ceiling env report (identified sv report opaSessionObj) w).2.1 ∧
          (∀ c ∈ preparedCalls w
              (prepareReport ceiling env report (identified sv report opaSessionObj) w),
            c.err = none) ∧
          ∃ c ∈ preparedCalls w
              (prepareReport ceiling env report (identified sv report opaSessionObj) w),
            c.report.PaginationInfo.IsLastReport = true) ∧
      (ActionSendReport ceiling env sv report opaSessionObj w).world =
        (prepareReport ceiling env report (identified sv report opaSessionObj) w).2.2 ∧
      (ActionSendReport ceiling env sv report opaSessionObj w).err = none := by
  have hA : ActionSendReport ceiling env sv report opaSessionObj w =
      match prepareReport ceiling env report (identified sv report opaSessionObj) w with
      | (some err, report1, w1) =>
        ⟨none, { report1 with message := err },
          { sv.finalizeReport opaSessionObj with Report := identified sv report opaSessionObj }, w1⟩
      | (none, report1, w1) =>
        ⟨none, generateMessage sv report1,
          { sv.finalizeReport opaSessionObj with Report := identified sv report opaSessionObj },
          w1⟩ := by
    simp only [ActionSendReport, hguid, hcl, if_false, identified]
  rcases hp : prepareReport ceiling env report (identified sv report opaSessionObj) w
    with ⟨_ | e, report1, w1⟩
  · rw [hA, hp]
    refine ⟨(by intro e h; cases h), fun _ => ⟨rfl, ?_⟩, rfl, rfl⟩
    have herr : (sendResources ceiling env
        (env.hostToString (env.initEventReceiverURL report).eventReceiverURL
          (identified sv report opaSessionObj).ReportID)
        (identified sv report opaSessionObj) 0 false w).err = none := by
      have := congrArg Prod.fst hp
      simpa [prepareReport] using this
    obtain ⟨h1, h2, h3⟩ := sent_of_nil ceiling env _ _ 0 false w herr
    obtain ⟨init, last, h4, h5, -⟩ := schedule_last ceiling env
      (identified sv report opaSessionObj) 0 h1
    rw [← hp, preparedCalls_eq]
    refine ⟨h3, ?_⟩
    have hmem : last ∈ sentReports w (sendResources ceiling env
        (env.hostToString (env.initEventReceiverURL report).eventReceiverURL
          (identified sv report opaSessionObj).ReportID)
        (identified sv report opaSessionObj) 0 false w) := by
      rw [h2, h4]
      simp
    obtain ⟨c, hc, hcl1⟩ := List.mem_map.mp hmem
    exact ⟨c, hc, by rw [hcl1]; exact h5⟩
  · rw [hA, hp]
    refine ⟨?_, (by intro h; cases h), rfl, rfl⟩
    intro e1 h
    cases h
    rfl

/-- C13, at a concrete input: the first request fails; the receiver's message
is the text of the transport error, not the link to the results. -/
theorem ActionSendReport_failure_message_witness :
    let receiver : ReportEventReceiver := ⟨"cluster", "guid", none, "token", "", ""⟩
    let session : OPASessionObj := ⟨⟨"", "", "", [⟨"a", [1, 2]⟩], [⟨"a", [3]⟩], ⟨0, false⟩⟩⟩
    (ActionSendReport 10 (failingTransport 0) sampleServices receiver session []).report.message =
        "https://report.example?reportID=3f0c2c1e-0000-4000-8000-000000000001, connection refused:" ∧
      (ActionSendReport 10 (failingTransport 0) sampleServices receiver session []).err = none := by
  intro receiver session
  have h := ActionSendReport_failure_message 10 (failingTransport 0) sampleServices receiver
    session [] (by decide) (by decide)
  exact ⟨by
    rw [h.1 "https://report.example?reportID=3f0c2c1e-0000-4000-8000-000000000001, connection refused:"
      (by decide)], h.2.2.2⟩

/-- C18 (missing identity guard). If the receiver's account ID is empty, or it
is not and the cluster name is empty, `ActionSendReport` sends nothing, sets
the warning message of that case and returns `nil`; the session object is the
one `finalizeReport` left, so its report keeps the `ReportID`, `CustomerGUID`
and `ClusterName` it had whenever `finalizeReport` keeps them.
`ActionSendReport` returns `nil` on every path. -/
theorem ActionSendReport_identity_guard (ceiling : Nat) (env : Env) (sv : Services)
    (report : ReportEventReceiver) (opaSessionObj : OPASessionObj) (w : World) :
    (report.customerGUID = "" →
        ActionSendReport ceiling env sv report opaSessionObj w =
          ⟨none, { report with message := "WARNING: Failed to publish results. Reason: Unknown accout ID. Run kubescape with the '--account <account ID>' flag. Contact ARMO team for more details" }, sv.finalizeReport opaSessionObj, w⟩) ∧
      (report.customerGUID ≠ "" → report.clusterName = "" →
        ActionSendReport ceiling env sv report opaSessionObj w =
          ⟨none, { report with message := "WARNING: Failed to publish results because the cluster name is Unknown. If you are scanning YAML files the results are not submitted to the Kubescape SaaS" }, sv.finalizeReport opaSessionObj, w⟩) ∧
      (report.customerGUID = "" ∨ report.clusterName = "" →
        (sv.finalizeReport opaSessionObj).Report.ReportID = opaSessionObj.Report.ReportID ∧
          (sv.finalizeReport opaSessionObj).Report.CustomerGUID =
            opaSessionObj.Report.CustomerGUID ∧
          (sv.finalizeReport opaSessionObj).Report.ClusterName =
            opaSessionObj.Report.ClusterName →
        (ActionSendReport ceiling env sv report opaSessionObj w).world = w ∧
          (ActionSendReport ceiling env sv report opaSessionObj w).opaSessionObj.Report.ReportID =
            opaSessionObj.Report.ReportID ∧
          (ActionSendReport ceiling env sv report opaSessionObj w).opaSessionObj.Report.CustomerGUID =
            opaSessionObj.Report.CustomerGUID ∧
          (ActionSendReport ceiling env sv report opaSessionObj w).opaSessionObj.Report.ClusterName =
            opaSessionObj.Report.ClusterName) ∧
      (ActionSendReport ceiling env sv report opaSessionObj w).err = none := by
  have h1 : report.customerGUID = "" →
      ActionSendReport ceiling env sv report opaSessionObj w =
        ⟨none, { report with message := "WARNING: Failed to publish results. Reason: Unknown accout ID. Run kubescape with the '--account <account ID>' flag. Contact ARMO team for more details" }, sv.finalizeReport opaSessionObj, w⟩ := by
    intro h
    simp only [ActionSendReport, h, if_true]
  have h2 : report.customerGUID ≠ "" → report.clusterName = "" →
      ActionSendReport ceiling env sv report opaSessionObj w =
        ⟨none, { report with message := "WARNING: Failed to publish results because the cluster name is Unknown. If you are scanning YAML files the results are not submitted to the Kubescape SaaS" }, sv.finalizeReport opaSessionObj, w⟩ := by
    intro hg hc
    simp only [ActionSendReport, hg, hc, if_true, if_false]
  refine ⟨h1, h2, ?_, ?_⟩
  · intro hguard hfin
    by_cases hg : report.customerGUID = ""
    · rw [h1 hg]
      exact ⟨rfl, hfin⟩
    · have hc : report.clusterName = "" := hguard.resolve_left hg
      rw [h2 hg hc]
      exact ⟨rfl, hfin⟩
  · by_cases hg : report.customerGUID = ""
    · rw [h1 hg]
    · by_cases hc : report.clusterName = ""
      · rw [h2 hg hc]
      · simp only [ActionSendReport, hg, hc, if_false]
        rcases prepareReport ceiling env report _ w with ⟨_ | e, report1, w1⟩ <;> rfl

/-- C18, at a concrete input: a receiver without account ID and a session with
two records.  Nothing is sent and the identifiers of the report stay empty. -/
theorem ActionSendReport_identity_guard_witness :
    let receiver : ReportEventReceiver := ⟨"cluster", "", none, "token", "", ""⟩
    let session : OPASessionObj := ⟨⟨"", "", "", [⟨"a", [1, 2]⟩], [⟨"a", [3]⟩], ⟨0, false⟩⟩⟩
    ActionSendReport MAX_REPORT_SIZE sampleEnv sampleServices receiver session [] =
      ⟨none, { receiver with message := "WARNING: Failed to publish results. Reason: Unknown accout ID. Run kubescape with the '--account <account ID>' flag. Contact ARMO team for more details" }, session, []⟩ :=
  (ActionSendReport_identity_guard MAX_REPORT_SIZE sampleEnv sampleServices
    ⟨"cluster", "", none, "token", "", ""⟩
    ⟨⟨"", "", "", [⟨"a", [1, 2]⟩], [⟨"a", [3]⟩], ⟨0, false⟩⟩⟩ []).1 rfl

/-- C14 (greedy maximality). For two sub-reports sent one after the other, the
serialized size of the records of the first plus the serialized size of the
first record of the second is at least the ceiling. -/
theorem sendResources_greedy (ceiling : Nat) (env : Env) (host : String)
    (postureReport : PostureReport) (reportCounter : Int) (isLastReport : Bool) (w : World)
    (k : Nat) (qk qn : PostureReport)
    (hk : (sentReports w (sendResources ceiling env host postureReport reportCounter
      isLastReport w))[k]? = some qk)
    (hn : (sentReports w (sendResources ceiling env host postureReport reportCounter
      isLastReport w))[k + 1]? = some qn) :
    ∃ x, (items qn).head? = some x ∧
      reportSize env qk + recordSize (marshalItem env) x ≥ ceiling := by
  obtain ⟨-, hpre, -, -⟩ := sent_log ceiling env host postureReport reportCounter isLastReport w
  have hchain := closed_tight ceiling (marshalItem env) (items postureReport) ⟨[], [], 0⟩
    (ordered_start postureReport) (tracked_start ceiling (marshalItem env))
  rw [← schedule_chunks ceiling env postureReport reportCounter] at hchain
  have hsent := hchain.infix (hpre.map chunkOf).isInfix
  exact chain_at (Tight ceiling (marshalItem env)) _ k (chunkOf qk) (chunkOf qn) hsent
    (by simp [List.getElem?_map, hk]) (by simp [List.getElem?_map, hn])

/-- C14, at a concrete input: the first two of the five sub-reports sent under
a ceiling of 10 bytes hold 8 bytes and a first record of 4 bytes. -/
theorem sendResources_greedy_witness :
    let r (id : String) (n : Nat) : Resource := ⟨id, List.replicate n 0⟩
    let x (id : String) (n : Nat) : Result := ⟨id, List.replicate n 0⟩
    let report : PostureReport :=
      ⟨"id", "guid", "cluster", [r "a" 4, r "b" 4, r "c" 4, r "d" 12],
        [x "a" 1, x "b" 9, x "c" 1], ⟨0, false⟩⟩
    (sentReports [] (sendResources 10 sampleEnv "host" report 0 false [])).take 2 =
        [⟨"id", "guid", "cluster", [r "a" 4, r "b" 4], [], ⟨0, false⟩⟩,
          ⟨"id", "guid", "cluster", [r "c" 4], [], ⟨1, false⟩⟩] ∧
      reportSize sampleEnv ⟨"id", "guid", "cluster", [r "a" 4, r "b" 4], [], ⟨0, false⟩⟩ = 8 ∧
      ∃ y, (items ⟨"id", "guid", "cluster", [r "c" 4], [], ⟨1, false⟩⟩).head? = some y ∧
        reportSize sampleEnv ⟨"id", "guid", "cluster", [r "a" 4, r "b" 4], [], ⟨0, false⟩⟩ +
          recordSize (marshalItem sampleEnv) y ≥ 10 := by
  intro r x report
  exact ⟨by decide, by decide, sendResources_greedy 10 sampleEnv "host" report 0 false [] 0
    ⟨"id", "guid", "cluster", [r "a" 4, r "b" 4], [], ⟨0, false⟩⟩
    ⟨"id", "guid", "cluster", [r "c" 4], [], ⟨1, false⟩⟩ (by decide) (by decide)⟩

/-- C16 (exact size guarantee). A sub-report sent that holds at least two
Results, or no Result and at least two Resources, has a serialized size
strictly below the ceiling; so a sub-report that reaches the ceiling holds no
Result and exactly one Resource, or at most one Result. -/
theorem sendResources_size_guarantee (ceiling : Nat) (env : Env) (host : String)
    (postureReport : PostureReport) (reportCounter : Int) (isLastReport : Bool) (w : World)
    (q : PostureReport)
    (hq : q ∈ sentReports w (sendResources ceiling env host postureReport reportCounter
      isLastReport w)) :
    ((2 ≤ q.Results.length ∨ (q.Results = [] ∧ 2 ≤ q.Resources.length)) →
        reportSize env q < ceiling) ∧
      (ceiling ≤ reportSize env q →
        (q.Results = [] ∧ q.Resources.length = 1) ∨ q.Results.length ≤ 1) := by
  have hs := sentReports_subset ceiling env host postureReport reportCounter isLastReport w q hq
  have hc : chunkOf q ∈ closed ceiling (marshalItem env) (items postureReport) ⟨[], [], 0⟩ := by
    rw [← schedule_chunks ceiling env postureReport reportCounter]
    exact List.mem_map_of_mem chunkOf hs
  have hb := closed_size_bound ceiling (marshalItem env) (items postureReport) ⟨[], [], 0⟩
    (ordered_start postureReport) (tracked_start ceiling (marshalItem env)) (chunkOf q) hc
  have hb1 : (2 ≤ q.Results.length ∨ (q.Results = [] ∧ 2 ≤ q.Resources.length)) →
      reportSize env q < ceiling := hb
  refine ⟨hb1, fun hge => ?_⟩
  right
  by_contra hlt
  have := hb1 (Or.inl (by omega))
  omega

/-- C16, at a concrete input: the sub-report of two Resources among the five
sent under a ceiling of 10 bytes has a size below 10. -/
theorem sendResources_size_guarantee_witness :
    let r (id : String) (n : Nat) : Resource := ⟨id, List.replicate n 0⟩
    let x (id : String) (n : Nat) : Result := ⟨id, List.replicate n 0⟩
    let report : PostureReport :=
      ⟨"id", "guid", "cluster", [r "a" 4, r "b" 4, r "c" 4, r "d" 12],
        [x "a" 1, x "b" 9, x "c" 1], ⟨0, false⟩⟩
    (⟨"id", "guid", "cluster", [r "a" 4, r "b" 4], [], ⟨0, false⟩⟩ : PostureReport) ∈
        sentReports [] (sendResources 10 sampleEnv "host" report 0 false []) ∧
      reportSize sampleEnv ⟨"id", "guid", "cluster", [r "a" 4, r "b" 4], [], ⟨0, false⟩⟩ < 10 := by
  intro r x report
  exact ⟨by decide, (sendResources_size_guarantee 10 sampleEnv "host" report 0 false []
    ⟨"id", "guid", "cluster", [r "a" 4, r "b" 4], [], ⟨0, false⟩⟩ (by decide)).1
    (Or.inr ⟨rfl, by decide⟩)⟩

/-- C17 (no empty pages). A sub-report sent that is not marked as the last one
holds at least one record; a sub-report sent that is marked as the last one
is empty if and only if the report has no Resource and no Result. -/
theorem sendResources_no_empty_page (ceiling : Nat) (env : Env) (host : String)
    (postureReport : PostureReport) (reportCounter : Int) (isLastReport : Bool) (w : World)
    (q : PostureReport)
    (hq : q ∈ sentReports w (sendResources ceiling env host postureReport reportCounter
      isLastReport w)) :
    (q.PaginationInfo.IsLastReport = false → 1 ≤ recordCount q) ∧
      (q.PaginationInfo.IsLastReport = true →
        (recordCount q = 0 ↔ postureReport.Resources = [] ∧ postureReport.Results = [])) := by
  have hs := sentReports_subset ceiling env host postureReport reportCounter isLastReport w q hq
  simp only [schedule, List.mem_append] at hs
  rcases hs with hs | hs
  · have hnl := stampSeq_not_last _ _ _ _ _ q hs
    have hne := plan_chunks_nonempty ceiling (marshalItem env) (items postureReport) ⟨[], [], 0⟩
      (chunkOf q) (mem_stampSeq _ _ _ _ _ q hs)
    refine ⟨fun _ => hne, fun h => ?_⟩
    rw [hnl] at h
    cases h
  · rcases hf : (plan ceiling (marshalItem env) (items postureReport) ⟨[], [], 0⟩).2 with e | a1
    · simp [hf] at hs
    · simp only [hf, List.mem_singleton] at hs
      subst hs
      refine ⟨fun h => (by cases h), fun _ => ?_⟩
      simp only [recordCount]
      constructor
      · intro h0
        by_contra hne
        have hitems : items postureReport ≠ [] := by
          intro hnil
          simp only [items, List.append_eq_nil, List.map_eq_nil_iff] at hnil
          exact hne hnil
        have := plan_final_nonempty ceiling (marshalItem env) (items postureReport) ⟨[], [], 0⟩
          a1 hf (Or.inl hitems)
        omega
      · intro hnil
        have hitems : items postureReport = [] := by simp [items, hnil.1, hnil.2]
        rw [hitems] at hf
        simp only [plan, Except.ok.injEq] at hf
        subst hf
        rfl

/-- C17, at a concrete input: the first of the five sub-reports sent is not
the last one and holds two records. -/
theorem sendResources_no_empty_page_witness :
    let r (id : String) (n : Nat) : Resource := ⟨id, List.replicate n 0⟩
    let x (id : String) (n : Nat) : Result := ⟨id, List.replicate n 0⟩
    let report : PostureReport :=
      ⟨"id", "guid", "cluster", [r "a" 4, r "b" 4, r "c" 4, r "d" 12],
        [x "a" 1, x "b" 9, x "c" 1], ⟨0, false⟩⟩
    (⟨"id", "guid", "cluster", [r "a" 4, r "b" 4], [], ⟨0, false⟩⟩ : PostureReport) ∈
        sentReports [] (sendResources 10 sampleEnv "host" report 0 false []) ∧
      1 ≤ recordCount ⟨"id", "guid", "cluster", [r "a" 4, r "b" 4], [], ⟨0, false⟩⟩ := by
  intro r x report
  exact ⟨by decide, (sendResources_no_empty_page 10 sampleEnv "host" report 0 false []
    ⟨"id", "guid", "cluster", [r "a" 4, r "b" 4], [], ⟨0, false⟩⟩ (by decide)).1 rfl⟩

/-- C11, as stated, fails: two Resources of 5 bytes under a ceiling of 10
bytes, with a transport that fails on the first request.  The sizes reach the
ceiling, and one sub-report is sent, not two. -/
theorem boundary_flush_then_failure :
    5 + 5 ≥ 10 ∧
      sentReports [] (sendResources 10 (failingTransport 0) "host"
          ⟨"id", "guid", "cluster", [⟨"r1", [1, 2, 3, 4, 5]⟩, ⟨"r2", [1, 2, 3, 4, 5]⟩], [],
            ⟨0, false⟩⟩ 0 false []) =
        [⟨"id", "guid", "cluster", [⟨"r1", [1, 2, 3, 4, 5]⟩], [], ⟨0, false⟩⟩] := by
  decide

/-- C11, amended (boundary arithmetic). For two Resources of serialized sizes
`a` and `b` and no Result: when `a + b < ceiling` one sub-report `[r1, r2]` is
sent, marked as the last one; when `a + b >= ceiling`, equality included, the
accumulator is flushed before `r2` is appended: `[r1]` is sent first, not
marked as the last one, and then `[r2]`, marked as the last one, when that
send succeeds, and nothing when it fails. -/
theorem sendResources_boundary (ceiling : Nat) (env : Env) (host id guid cl : String)
    (pg : PaginationMarks) (reportCounter : Int) (isLastReport : Bool) (w : World)
    (r1 r2 : Resource) (b1 b2 : Bytes)
    (h1 : env.marshalResource r1 = .ok b1) (h2 : env.marshalResource r2 = .ok b2) :
    (b1.length + b2.length < ceiling →
        sentReports w (sendResources ceiling env host ⟨id, guid, cl, [r1, r2], [], pg⟩
          reportCounter isLastReport w) =
          [⟨id, guid, cl, [r1, r2], [], ⟨reportCounter, true⟩⟩]) ∧
      (b1.length + b2.length ≥ ceiling →
        ∃ c1,
          (sent w (sendResources ceiling env host ⟨id, guid, cl, [r1, r2], [], pg⟩
            reportCounter isLastReport w)).head? = some c1 ∧
          c1.report = ⟨id, guid, cl, [r1], [], ⟨reportCounter, false⟩⟩ ∧
          (c1.err = none →
            sentReports w (sendResources ceiling env host ⟨id, guid, cl, [r1, r2], [], pg⟩
              reportCounter isLastReport w) =
              [⟨id, guid, cl, [r1], [], ⟨reportCounter, false⟩⟩,
                ⟨id, guid, cl, [r2], [], ⟨reportCounter + 1, true⟩⟩]) ∧
          (c1.err ≠ none →
            sentReports w (sendResources ceiling env host ⟨id, guid, cl, [r1, r2], [], pg⟩
              reportCounter isLastReport w) =
              [⟨id, guid, cl, [r1], [], ⟨reportCounter, false⟩⟩])) := by
  obtain ⟨hlt, hge⟩ := schedule_two ceiling env id guid cl pg reportCounter r1 r2 b1 b2 h1 h2
  constructor
  · intro h
    exact sentReports_single _ _ _ _ _ _ _ _ (hlt h)
  · intro h
    obtain ⟨c1, hc1, hcase⟩ := sendAll_pair env host
      ⟨id, guid, cl, [r1], [], ⟨reportCounter, false⟩⟩
      ⟨id, guid, cl, [r2], [], ⟨reportCounter + 1, true⟩⟩ w
    rcases hcase with ⟨herr, c2, hc2, hw⟩ | ⟨herr, hw⟩
    · have hs : sent w (sendResources ceiling env host ⟨id, guid, cl, [r1, r2], [], pg⟩
          reportCounter isLastReport w) = [c1, c2] := by
        rw [sent, sendResources_world, hge h, hw, List.drop_left]
      refine ⟨c1, by rw [hs]; rfl, hc1, fun _ => ?_, fun hne => absurd herr hne⟩
      simp [sentReports, hs, hc1, hc2]
    · have hs : sent w (sendResources ceiling env host ⟨id, guid, cl, [r1, r2], [], pg⟩
          reportCounter isLastReport w) = [c1] := by
        rw [sent, sendResources_world, hge h, hw, List.drop_left]
      refine ⟨c1, by rw [hs]; rfl, hc1, fun he => absurd he herr, fun _ => ?_⟩
      simp [sentReports, hs, hc1]

/-- C11 amended, at a concrete input: two Resources of 5 bytes under a ceiling
of 10 bytes, with collaborators that never fail: `[r1]`, then `[r2]`. -/
theorem sendResources_boundary_witness :
    sentReports [] (sendResources 10 sampleEnv "host"
        ⟨"id", "guid", "cluster", [⟨"r1", [1, 2, 3, 4, 5]⟩, ⟨"r2", [1, 2, 3, 4, 5]⟩], [],
          ⟨0, false⟩⟩ 0 false []) =
      [⟨"id", "guid", "cluster", [⟨"r1", [1, 2, 3, 4, 5]⟩], [], ⟨0, false⟩⟩,
        ⟨"id", "guid", "cluster", [⟨"r2", [1, 2, 3, 4, 5]⟩], [], ⟨1, true⟩⟩] := by
  obtain ⟨c1, hhead, -, hok, -⟩ :=
    (sendResources_boundary 10 sampleEnv "host" "id" "guid" "cluster" ⟨0, false⟩ 0 false []
      ⟨"r1", [1, 2, 3, 4, 5]⟩ ⟨"r2", [1, 2, 3, 4, 5]⟩ [1, 2, 3, 4, 5] [1, 2, 3, 4, 5]
      rfl rfl).2 (by decide)
  apply hok
  have hc : c1 = ⟨⟨"id", "guid", "cluster", [⟨"r1", [1, 2, 3, 4, 5]⟩], [], ⟨0, false⟩⟩,
      some ("host", []), none⟩ := by
    have : (sent [] (sendResources 10 sampleEnv "host"
        ⟨"id", "guid", "cluster", [⟨"r1", [1, 2, 3, 4, 5]⟩, ⟨"r2", [1, 2, 3, 4, 5]⟩], [],
          ⟨0, false⟩⟩ 0 false [])).head? =
        some ⟨⟨"id", "guid", "cluster", [⟨"r1", [1, 2, 3, 4, 5]⟩], [], ⟨0, false⟩⟩,
          some ("host", []), none⟩ := by decide
    rw [this] at hhead
    exact (Option.some.inj hhead).symm
  rw [hc]

/-- C15, as stated, fails: two Resources of 6 bytes and one Result under a
ceiling of 10 bytes, with a transport that fails on the first request.  The
only sub-report sent holds the first Resource; the last Resource and the first
Result are in no sub-report. -/
theorem boundary_merge_needs_delivery :
    sentReports [] (sendResources 10 (failingTransport 0) "host"
        ⟨"id", "guid", "cluster", [⟨"a", [1, 2, 3, 4, 5, 6]⟩, ⟨"b", [1, 2, 3, 4, 5, 6]⟩],
          [⟨"a", [1]⟩], ⟨0, false⟩⟩ 0 false []) =
        [⟨"id", "guid", "cluster", [⟨"a", [1, 2, 3, 4, 5, 6]⟩], [], ⟨0, false⟩⟩] ∧
      ¬ ∃ q ∈ sentReports [] (sendResources 10 (failingTransport 0) "host"
        ⟨"id", "guid", "cluster", [⟨"a", [1, 2, 3, 4, 5, 6]⟩, ⟨"b", [1, 2, 3, 4, 5, 6]⟩],
          [⟨"a", [1]⟩], ⟨0, false⟩⟩ 0 false []),
        (⟨"b", [1, 2, 3, 4, 5, 6]⟩ : Resource) ∈ q.Resources ∨
          (⟨"a", [1]⟩ : Result) ∈ q.Results := by
  decide

/-- C15, amended (merge at the pass boundary). For a report with at least one
Resource and at least one Result, when every record serializes and every send
succeeds, one sub-report sent holds both the last Resource and the first
Result, whatever their sizes: the Resources of the sub-reports up to it are
all the Resources and it holds some, and no sub-report before it holds a
Result and it holds some. -/
theorem sendResources_boundary_merge (ceiling : Nat) (env : Env) (host : String)
    (postureReport : PostureReport) (reportCounter : Int) (isLastReport : Bool) (w : World)
    (hres : ∀ v ∈ postureReport.Resources, ∃ r, env.marshalResource v = .ok r)
    (hresults : ∀ v ∈ postureReport.Results, ∃ r, env.marshalResult v = .ok r)
    (hsend : ∀ c ∈ sent w (sendResources ceiling env host postureReport reportCounter
      isLastReport w), c.err = none)
    (hR : postureReport.Resources ≠ []) (hX : postureReport.Results ≠ []) :
    ∃ pre q post,
      sentReports w (sendResources ceiling env host postureReport reportCounter
        isLastReport w) = pre ++ q :: post ∧
      (pre.map (fun q1 => q1.Resources)).flatten ++ q.Resources = postureReport.Resources ∧
      q.Resources ≠ [] ∧
      (∀ q1 ∈ pre, q1.Results = []) ∧
      q.Results ≠ [] ∧
      q.Resources.getLast? = postureReport.Resources.getLast? ∧
      q.Results.head? = postureReport.Results.head? := by
  obtain ⟨hs, -⟩ := sent_of_all_ok ceiling env host postureReport reportCounter isLastReport w hsend
  have hall := marshalItem_ok env postureReport hres hresults
  have hallR : ∀ x ∈ postureReport.Resources.map (Sum.inl : Resource → Item),
      ∃ r, marshalItem env x = .ok r := fun x hx => hall x (by simp [items, hx])
  obtain ⟨a1, ha1⟩ := plan_ok ceiling (marshalItem env) (postureReport.Resources.map Sum.inl)
    ⟨[], [], 0⟩ hallR
  obtain ⟨hcs1, ha1X⟩ := plan_inl_no_results ceiling (marshalItem env) postureReport.Resources
    ⟨[], [], 0⟩ rfl
  have ha1X := ha1X a1 ha1
  obtain ⟨hflat, -⟩ := plan_flatten ceiling (marshalItem env)
    (postureReport.Resources.map Sum.inl) ⟨[], [], 0⟩ a1 ha1
  rw [lefts_of_inl] at hflat
  simp only [List.nil_append] at hflat
  have hne := plan_final_nonempty ceiling (marshalItem env)
    (postureReport.Resources.map Sum.inl) ⟨[], [], 0⟩ a1 ha1 (Or.inl (by simpa using hR))
  have ha1R : a1.Resources ≠ [] := by
    intro h
    rw [h, ha1X] at hne
    simp at hne
  obtain ⟨v, X, hvX⟩ := List.exists_cons_of_ne_nil hX
  obtain ⟨q, rest, hq, hq1, hq2⟩ := closed_boundary ceiling (marshalItem env) v X a1
    (fun u hu => hresults u (by rw [hvX]; exact hu)) ha1X
  have hchunks := schedule_chunks ceiling env postureReport reportCounter
  rw [items, closed_append ceiling (marshalItem env) _ _ _ a1 ha1, hvX, hq] at hchunks
  obtain ⟨pre, l2, hsplit, hpre, hl2⟩ := List.map_eq_append_iff.mp hchunks
  obtain ⟨qr, post, hl2eq, hqr, -⟩ := List.map_eq_cons_iff.mp hl2
  subst hl2eq
  obtain ⟨-, hcomplete⟩ := schedule_complete ceiling env postureReport reportCounter hall
  have hqrR : qr.Resources = a1.Resources := by
    have := congrArg Prod.fst hqr
    simpa [chunkOf, hq1] using this
  have hqrX : qr.Results ≠ [] := by
    have := congrArg Prod.snd hqr
    simp only [chunkOf] at this
    rw [this]
    exact hq2
  have hpreX : ∀ q1 ∈ pre, q1.Results = [] := by
    intro q1 hq1mem
    have : chunkOf q1 ∈ (plan ceiling (marshalItem env) (postureReport.Resources.map Sum.inl)
        ⟨[], [], 0⟩).1 := by
      rw [← hpre]
      exact List.mem_map_of_mem chunkOf hq1mem
    exact hcs1 _ this
  have hpreR : pre.map (fun q1 => q1.Resources) =
      (plan ceiling (marshalItem env) (postureReport.Resources.map Sum.inl) ⟨[], [], 0⟩).1.map
        Prod.fst := by
    rw [← hpre, List.map_map]
    rfl
  have hRes : (pre.map (fun q1 => q1.Resources)).flatten ++ qr.Resources =
      postureReport.Resources := by
    rw [hpreR, hqrR]
    exact hflat
  refine ⟨pre, qr, post, by rw [hs, hsplit], hRes, by rw [hqrR]; exact ha1R, hpreX, hqrX, ?_, ?_⟩
  · rw [← hRes]
    exact (List.getLast?_append_of_ne_nil _ (by rw [hqrR]; exact ha1R)).symm
  · rw [hsplit] at hcomplete
    have hnil : (pre.map (fun q1 => q1.Results)).flatten = [] := by
      rw [List.flatten_eq_nil_iff]
      intro l hl
      obtain ⟨q1, hq1mem, rfl⟩ := List.mem_map.mp hl
      exact hpreX q1 hq1mem
    simp only [List.map_append, List.map_cons, List.flatten_append, List.flatten_cons, hnil,
      List.nil_append] at hcomplete
    rw [← hcomplete]
    exact (List.head?_append_of_ne_nil _ hqrX).symm

/-- C15 amended, at a concrete input: a Resource of 12 bytes, above the ceiling
of 10 bytes, and the first Result are sent in one sub-report, the third of
five. -/
theorem sendResources_boundary_merge_witness :
    let r (id : String) (n : Nat) : Resource := ⟨id, List.replicate n 0⟩
    let x (id : String) (n : Nat) : Result := ⟨id, List.replicate n 0⟩
    let report : PostureReport :=
      ⟨"id", "guid", "cluster", [r "a" 4, r "b" 4, r "c" 4, r "d" 12],
        [x "a" 1, x "b" 9, x "c" 1], ⟨0, false⟩⟩
    (sentReports [] (sendResources 10 sampleEnv "host" report 0 false []))[2]? =
        some ⟨"id", "guid", "cluster", [r "d" 12], [x "a" 1], ⟨2, false⟩⟩ ∧
      ∃ pre q post,
        sentReports [] (sendResources 10 sampleEnv "host" report 0 false []) = pre ++ q :: post ∧
        (pre.map (fun q1 => q1.Resources)).flatten ++ q.Resources = report.Resources ∧
        q.Resources ≠ [] ∧
        (∀ q1 ∈ pre, q1.Results = []) ∧
        q.Results ≠ [] ∧
        q.Resources.getLast? = report.Resources.getLast? ∧
        q.Results.head? = report.Results.head? := by
  intro r x report
  exact ⟨by decide, sendResources_boundary_merge 10 sampleEnv "host" report 0 false []
    (fun v _ => ⟨_, rfl⟩) (fun v _ => ⟨_, rfl⟩) (by decide) (by decide) (by decide)⟩

end ReporterV2
